import Mathlib

/-!
A shallow embedding of the synthetic-firmware generation pipeline of the
`isa-classifier` repository (`src/armgen/oracle/firmware/`): the ISA-family
database (`config.py`), the blob index (`extractor.py`), the layout engine
(`layout.py`), the header/trailer generators (`headers.py`) and the per-image
assembler (`build_firmware.py`).

Modelling conventions:

* Python's `random.Random` is modelled as an oracle: a stream of natural
  numbers consumed one draw per primitive call.  Every primitive interprets
  its draw so that the produced value is always in the range the Python
  primitive can return (`randint a b` yields `a + n % (b - a + 1)`,
  `choice xs` yields `xs[n % len xs]`, `random()` yields `(n % 2^53) / 2^53`
  as a rational).  Quantifying over streams therefore quantifies over all
  possible behaviours of the seeded Mersenne Twister; a fresh
  `Random(seed)` object is an arbitrary function from seeds to streams.
* Python floats are modelled as rationals.  The float rounding of literals
  such as `0.3` and of `uniform` arithmetic only perturbs the probability
  distribution of the drawn values, never the set of values a caller can
  observe, and no claim depends on the distribution.
* `bytes`/`bytearray` values are `List Nat` with every element `< 256`.
  Python's slice assignment `buf[a:a+len(d)] = d` (which appends when the
  slice reaches past the end of the buffer) is `pySliceAssign`.
* Family names, header names and trailer names are string keys from finite
  tables in the source; they are embedded as inductive types.  `isa_label`
  (the `'+'.join(sorted(families))` string) is carried as the sorted list of
  families: no family name contains `'+'` and every name is nonempty, so the
  joined string and the sorted list determine each other, including the
  `label.split('+')` reconstruction performed by `generate_batch`.
* Wall-clock time (`time.time()`) is an explicit `now : Nat` parameter.
-/

namespace FwGen

/-! ## Exact rational arithmetic

Python floats are modelled as exact rationals.  `Q` is an unnormalized
fraction with a positive denominator (every constructor and operation
below preserves denominator positivity for the inputs this file builds);
keeping it unnormalized makes every operation a plain integer expression
the kernel can evaluate. -/

structure Q where
  num : Int
  den : Int
deriving Repr, DecidableEq

/-- Embed an integer. -/
def Q.ofInt (n : Int) : Q := ⟨n, 1⟩

/-- Embed a natural number. -/
def Q.ofNat (n : Nat) : Q := ⟨(n : Int), 1⟩

/-- Addition (cross-multiplied). -/
def Q.add (a b : Q) : Q := ⟨a.num * b.den + b.num * a.den, a.den * b.den⟩

/-- Subtraction. -/
def Q.sub (a b : Q) : Q := ⟨a.num * b.den - b.num * a.den, a.den * b.den⟩

/-- Multiplication. -/
def Q.mul (a b : Q) : Q := ⟨a.num * b.num, a.den * b.den⟩

/-- Division (every division in this file has a divisor with positive
numerator). -/
def Q.div (a b : Q) : Q := ⟨a.num * b.den, a.den * b.num⟩

/-- Strict order (valid for positive denominators). -/
def Q.blt (a b : Q) : Bool := a.num * b.den < b.num * a.den

/-- Order (valid for positive denominators). -/
def Q.ble (a b : Q) : Bool := a.num * b.den ≤ b.num * a.den

/-- Floor, as used by Python's `int()` on the nonnegative values it is
applied to. -/
def Q.floorToNat (a : Q) : Nat := (a.num.fdiv a.den).toNat

/-- Sum of a list. -/
def Q.sumList (l : List Q) : Q := l.foldl Q.add ⟨0, 1⟩

/-! ## The random-oracle model of `random.Random` -/

/-- A pseudo-random stream: the sequence of abstract draws an instance of
`random.Random` will produce.  An exhausted stream keeps producing `0`. -/
structure Rng where
  stream : List Nat
deriving Repr, DecidableEq

/-- Consume one draw. -/
def Rng.next : Rng → Nat × Rng
  | ⟨[]⟩ => (0, ⟨[]⟩)
  | ⟨n :: rest⟩ => (n, ⟨rest⟩)

/-- `rng.random()`: a value in `[0, 1)` with 53-bit granularity. -/
def Rng.randomQ (r : Rng) : Q × Rng :=
  (⟨((r.next.1 % 2 ^ 53 : Nat) : Int), 2 ^ 53⟩, r.next.2)

/-- `rng.uniform(a, b) = a + (b - a) * random()`. -/
def Rng.uniformQ (a b : Q) (r : Rng) : Q × Rng :=
  (a.add ((b.sub a).mul r.randomQ.1), r.randomQ.2)

/-- `rng.randint(a, b)`: an integer in `[a, b]` (callers always pass
`a ≤ b`). -/
def Rng.randintN (a b : Nat) (r : Rng) : Nat × Rng :=
  (a + r.next.1 % (b + 1 - a), r.next.2)

/-- `rng.choice(xs)`: an element of `xs` (callers never pass `[]`; the
default is only to make the function total). -/
def Rng.chooseFrom {α : Type} (xs : List α) (default : α) (r : Rng) :
    α × Rng :=
  (xs.getD (r.next.1 % xs.length) default, r.next.2)

/-- `rng.randbytes(k)`: `k` bytes, one draw per byte. -/
def Rng.randbytesN : Nat → Rng → List Nat × Rng
  | 0, r => ([], r)
  | k + 1, r =>
    let rest := Rng.randbytesN k r.next.2
    (r.next.1 % 256 :: rest.1, rest.2)

/-! ## ISA families, header kinds, trailer kinds (`config.py`) -/

/-- The endianness of an ISA family. -/
inductive Endian
  | little
  | big
deriving Repr, DecidableEq

/-- The 21 ISA-family keys of the `ISA_FAMILIES` table. -/
inductive Fam
  | arm32 | thumb | aarch64 | x86 | x86_64
  | riscv32 | riscv64
  | mips32_be | mips32_le | mips64_be | mips64_le
  | ppc32 | ppc64_be | ppc64_le
  | sparc32 | sparc64 | s390x | loongarch64
  | avr | msp430 | hexagon
deriving Repr, DecidableEq

/-- The family's dictionary-key string. -/
def famName : Fam → String
  | .arm32 => "arm32" | .thumb => "thumb" | .aarch64 => "aarch64"
  | .x86 => "x86" | .x86_64 => "x86_64"
  | .riscv32 => "riscv32" | .riscv64 => "riscv64"
  | .mips32_be => "mips32_be" | .mips32_le => "mips32_le"
  | .mips64_be => "mips64_be" | .mips64_le => "mips64_le"
  | .ppc32 => "ppc32" | .ppc64_be => "ppc64_be" | .ppc64_le => "ppc64_le"
  | .sparc32 => "sparc32" | .sparc64 => "sparc64" | .s390x => "s390x"
  | .loongarch64 => "loongarch64"
  | .avr => "avr" | .msp430 => "msp430" | .hexagon => "hexagon"

/-- Rank of the family name in the lexicographic order of the 21 name
strings; `sorted(names)` in Python is exactly sorting by this rank. -/
def famIdx : Fam → Nat
  | .aarch64 => 0 | .arm32 => 1 | .avr => 2 | .hexagon => 3
  | .loongarch64 => 4
  | .mips32_be => 5 | .mips32_le => 6 | .mips64_be => 7 | .mips64_le => 8
  | .msp430 => 9
  | .ppc32 => 10 | .ppc64_be => 11 | .ppc64_le => 12
  | .riscv32 => 13 | .riscv64 => 14
  | .s390x => 15 | .sparc32 => 16 | .sparc64 => 17
  | .thumb => 18 | .x86 => 19 | .x86_64 => 20

/-- All 21 families in the sorted (dictionary-key) order that
`BlobIndex.families()` reports them in. -/
def allFamsSorted : List Fam :=
  [.aarch64, .arm32, .avr, .hexagon, .loongarch64,
   .mips32_be, .mips32_le, .mips64_be, .mips64_le, .msp430,
   .ppc32, .ppc64_be, .ppc64_le, .riscv32, .riscv64,
   .s390x, .sparc32, .sparc64, .thumb, .x86, .x86_64]

/-- The 14 header-generator keys of `HEADER_REGISTRY`. -/
inductive HType
  | vector_table_cortexm | vector_table_arm | boot_vector_mips
  | avr_vector_table | msp430_vector_table
  | uboot | android_boot | tplink | mediatek | qualcomm_mbn
  | bios_boot | uefi_stub | opensbi_stub | bare
deriving Repr, DecidableEq

/-- The 4 trailer-generator keys of `TRAILER_REGISTRY`. -/
inductive TType
  | crc32 | md5 | sha256 | none
deriving Repr, DecidableEq

/-- One record of the `ISA_FAMILIES` database. -/
structure IsaFamily where
  name : String
  endianness : Endian
  pointer_width : Nat
  triples : List String
  header_types : List HType
  typical_base_addr : Nat
  alignment : Nat
deriving Repr, DecidableEq

/-- The `ISA_FAMILIES` table of `config.py` (total on the key type `Fam`,
so the `.get` fallbacks of the source can never fire for a key drawn from
this table). -/
def ISA_FAMILIES : Fam → IsaFamily
  | .arm32 =>
    ⟨"arm32", .little, 32,
     ["arm-unknown-linux-gnueabi", "arm-unknown-linux-gnueabihf",
      "armv7-unknown-linux-gnueabihf"],
     [.vector_table_arm, .uboot, .android_boot, .bare], 0x00000000, 4⟩
  | .thumb =>
    ⟨"thumb", .little, 32, ["thumbv7m-none-eabi"],
     [.vector_table_cortexm, .bare], 0x08000000, 2⟩
  | .aarch64 =>
    ⟨"aarch64", .little, 64,
     ["aarch64-unknown-linux-gnu", "aarch64-unknown-linux-musl"],
     [.uboot, .android_boot, .bare], 0x40000000, 4⟩
  | .x86 =>
    ⟨"x86", .little, 32, ["i686-unknown-linux-gnu"],
     [.bios_boot, .uefi_stub, .bare], 0x00007C00, 1⟩
  | .x86_64 =>
    ⟨"x86_64", .little, 64,
     ["x86_64-unknown-linux-gnu", "x86_64-unknown-linux-musl"],
     [.uefi_stub, .bios_boot, .uboot, .bare], 0x00100000, 1⟩
  | .riscv32 =>
    ⟨"riscv32", .little, 32,
     ["riscv32-unknown-linux-gnu", "riscv32-unknown-elf"],
     [.opensbi_stub, .uboot, .bare], 0x80000000, 4⟩
  | .riscv64 =>
    ⟨"riscv64", .little, 64,
     ["riscv64-unknown-linux-gnu", "riscv64-unknown-elf"],
     [.opensbi_stub, .uboot, .bare], 0x80000000, 4⟩
  | .mips32_be =>
    ⟨"mips32_be", .big, 32, ["mips-unknown-linux-gnu"],
     [.boot_vector_mips, .uboot, .tplink, .bare], 0xBFC00000, 4⟩
  | .mips32_le =>
    ⟨"mips32_le", .little, 32, ["mipsel-unknown-linux-gnu"],
     [.boot_vector_mips, .uboot, .tplink, .bare], 0xBFC00000, 4⟩
  | .mips64_be =>
    ⟨"mips64_be", .big, 64, ["mips64-unknown-linux-gnuabi64"],
     [.boot_vector_mips, .uboot, .bare], 0xFFFFFFFF80000000, 4⟩
  | .mips64_le =>
    ⟨"mips64_le", .little, 64, ["mips64el-unknown-linux-gnuabi64"],
     [.boot_vector_mips, .uboot, .bare], 0xFFFFFFFF80000000, 4⟩
  | .ppc32 =>
    ⟨"ppc32", .big, 32, ["powerpc-unknown-linux-gnu"],
     [.uboot, .bare], 0x00000000, 4⟩
  | .ppc64_be =>
    ⟨"ppc64_be", .big, 64, ["powerpc64-unknown-linux-gnu"],
     [.uboot, .bare], 0x00000000, 4⟩
  | .ppc64_le =>
    ⟨"ppc64_le", .little, 64, ["powerpc64le-unknown-linux-gnu"],
     [.uboot, .bare], 0x00000000, 4⟩
  | .sparc32 =>
    ⟨"sparc32", .big, 32, ["sparc-unknown-linux-gnu"],
     [.uboot, .bare], 0x00000000, 4⟩
  | .sparc64 =>
    ⟨"sparc64", .big, 64, ["sparc64-unknown-linux-gnu"],
     [.uboot, .bare], 0x00000000, 4⟩
  | .s390x =>
    ⟨"s390x", .big, 64, ["s390x-unknown-linux-gnu"],
     [.uboot, .bare], 0x00000000, 4⟩
  | .loongarch64 =>
    ⟨"loongarch64", .little, 64, ["loongarch64-unknown-linux-gnu"],
     [.uboot, .bare], 0x9000000000000000, 4⟩
  | .avr =>
    ⟨"avr", .little, 16, ["avr-unknown-unknown"],
     [.avr_vector_table, .bare], 0x0000, 2⟩
  | .msp430 =>
    ⟨"msp430", .little, 16, ["msp430-none-elf"],
     [.msp430_vector_table, .bare], 0xC000, 2⟩
  | .hexagon =>
    ⟨"hexagon", .little, 32, ["hexagon-unknown-linux-musl"],
     [.qualcomm_mbn, .bare], 0x00000000, 4⟩

/-- The `MULTI_ISA_AFFINITY` table (families absent from the dict map to
`[]`, matching `dict.get(primary, [])`). -/
def MULTI_ISA_AFFINITY : Fam → List (Fam × Q)
  | .arm32 => [(.thumb, ⟨3, 1⟩), (.aarch64, ⟨1, 1⟩)]
  | .thumb => [(.arm32, ⟨3, 1⟩)]
  | .aarch64 => [(.arm32, ⟨2, 1⟩), (.thumb, ⟨1, 1⟩)]
  | .x86_64 => [(.x86, ⟨2, 1⟩), (.arm32, ⟨1, 1⟩)]
  | .x86 => [(.x86_64, ⟨1, 1⟩)]
  | .mips32_be => [(.mips32_le, ⟨1, 2⟩)]
  | .mips32_le => [(.mips32_be, ⟨1, 2⟩)]
  | .mips64_be => [(.mips32_be, ⟨2, 1⟩)]
  | .mips64_le => [(.mips32_le, ⟨2, 1⟩)]
  | .riscv64 => [(.riscv32, ⟨2, 1⟩)]
  | .riscv32 => [(.riscv64, ⟨1, 1⟩)]
  | .ppc64_be => [(.ppc32, ⟨1, 1⟩)]
  | .ppc64_le => [(.ppc32, ⟨1, 2⟩)]
  | .hexagon => [(.arm32, ⟨2, 1⟩), (.aarch64, ⟨1, 1⟩)]
  | _ => []

/-- `FirmwareGenConfig` (`config.py`).  The `Path`-valued directory fields,
`parallel_jobs`, `force_extract` and `verbose` do not affect any byte of
output in the model (the filesystem is an explicit oracle) and are omitted. -/
structure FirmwareGenConfig where
  seed : Nat := 42
  num_images : Nat := 1000
  min_size : Nat := 4096
  max_size : Nat := 16 * 1024 * 1024
  multi_isa_probability : Q := ⟨15, 100⟩
  families : Option (List Fam) := Option.none
  min_images_per_combo : Nat := 20
deriving Repr, DecidableEq

/-! ## Blob index (`extractor.py`) -/

/-- `BlobInfo`: metadata for one extracted `.bin`; the file path is
determined by `(family, triple, config, program)`. -/
structure BlobInfo where
  family : Fam
  triple : String
  config : String
  program : String
  size_bytes : Nat
deriving Repr, DecidableEq

/-- `BlobIndex`: the one-shot, path-sorted scan result, as the per-family
map it builds.  Zero-size blobs are dropped by the scan, so every listed
blob has `size_bytes > 0` in real runs (not needed by any claim). -/
structure BlobIndex where
  blobs : Fam → List BlobInfo

/-- `BlobIndex.families()`: sorted keys that hold at least one blob. -/
def BlobIndex.families (idx : BlobIndex) : List Fam :=
  allFamsSorted.filter (fun f => idx.blobs f ≠ [])

/-- `BlobIndex.blob_count(family)`. -/
def BlobIndex.blob_count (idx : BlobIndex) (f : Fam) : Nat :=
  (idx.blobs f).length

/-- `BlobIndex.get_random_blob(family, rng)`: `None` when the family is
empty, otherwise `rng.choice(blobs)`. -/
def BlobIndex.get_random_blob (idx : BlobIndex) (f : Fam) (r : Rng) :
    Option BlobInfo × Rng :=
  match idx.blobs f with
  | [] => (Option.none, r)
  | b :: bs =>
    (Option.some (Rng.chooseFrom (b :: bs) b r).1,
     (Rng.chooseFrom (b :: bs) b r).2)

/-! ## Layout data model (`layout.py`) -/

/-- `SectionType`. -/
inductive SType
  | header | code | padding | string_table | filesystem | random | rodata
  | trailer
deriving Repr, DecidableEq

/-- The filesystem-magic keys used by `Filesystem` sections. -/
inductive FsType
  | squashfs | jffs2 | cramfs | romfs
deriving Repr, DecidableEq

/-- `fill_params`: the per-section-kind payload the layout engine puts in
the `fill_params` dict (one constructor per key set the source uses). -/
inductive FillParams
  | emptyFill
  | headerFill (h : HType)
  | paddingFill (fill_byte : Nat)
  | stringFill
  | fsFill (fs : FsType)
  | randomFill
  | rodataFill
  | codeFill (blob_family : Fam) (blob_triple : String)
      (blob_program : String) (blob_config : String)
  | trailerFill (t : TType)
deriving Repr, DecidableEq

/-- `SectionSpec`. -/
structure SectionSpec where
  offset : Nat
  size : Nat
  section_type : SType
  alignment : Nat := 1
  isa_family : Option Fam := Option.none
  fill_params : FillParams := .emptyFill
deriving Repr, DecidableEq

/-- Sort a family list by the lexicographic order of the name strings
(`sorted(all_families)`); insertion sort keeps every definition
kernel-computable. -/
def sortFams (l : List Fam) : List Fam :=
  List.insertionSort (fun a b => famIdx a ≤ famIdx b) l

/-- `ImageLayout`.  `image_id` is carried as the pair
`(config.seed, seq)` that determines the string `fw_{seed}_{seq:06d}`. -/
structure ImageLayout where
  image_id : String
  total_size : Nat
  primary_isa : Fam
  header_type : HType
  trailer_type : TType
  sections : List SectionSpec
  all_isa_families : List Fam
  seed : Nat
deriving Repr, DecidableEq

/-- `ImageLayout.isa_label`, carried as the sorted family list (the source
joins it with `'+'`; see the file header). -/
def ImageLayout.isaLabel (l : ImageLayout) : List Fam :=
  sortFams l.all_isa_families

/-- `ImageLayout.is_multi_isa`. -/
def ImageLayout.is_multi_isa (l : ImageLayout) : Bool :=
  l.all_isa_families.length > 1

/-- Non-code section-type weights `_NON_CODE_WEIGHTS` (iterated in dict
insertion order). -/
def NON_CODE_WEIGHTS : List (SType × Q) :=
  [(.padding, ⟨40, 1⟩), (.string_table, ⟨15, 1⟩), (.filesystem, ⟨10, 1⟩),
   (.random, ⟨20, 1⟩), (.rodata, ⟨15, 1⟩)]

/-- `_TRAILER_WEIGHTS`. -/
def TRAILER_WEIGHTS : List (TType × Q) :=
  [(.crc32, ⟨40, 1⟩), (.md5, ⟨20, 1⟩), (.sha256, ⟨10, 1⟩),
   (.none, ⟨30, 1⟩)]

/-- `_TRAILER_SIZES` (also `_get_trailer_size` of `build_firmware.py`). -/
def trailerSize : TType → Nat
  | .crc32 => 4
  | .md5 => 16
  | .sha256 => 32
  | .none => 0

/-- The cumulative scan of `_weighted_choice` (`fallback` is
`options[-1][0]`, reached only when rounding keeps `r` above every
cumulative weight). -/
def weightedGo {α : Type} (fallback : α) (r : Q) :
    List (α × Q) → Q → α
  | [], _ => fallback
  | (item, weight) :: rest, cumulative =>
    if r.ble (cumulative.add weight) then item
    else weightedGo fallback r rest (cumulative.add weight)

/-- `_weighted_choice`: `r = random() * total`, then the first prefix of
the cumulative weights reaching `r` wins. -/
def weightedChoice {α : Type} (rng : Rng) (options : List (α × Q))
    (default : α) : α × Rng :=
  let total : Q := Q.sumList (options.map Prod.snd)
  let r : Q := rng.randomQ.1.mul total
  (weightedGo (((options.getLast? ).map Prod.fst).getD default) r
    options ⟨0, 1⟩, rng.randomQ.2)

/-- `_align_up`: the source computes `(v + a - 1) & ~(a - 1)`; for the
power-of-two alignments the engine uses (1, 2, 4, 256) this clears the low
bits, i.e. rounds `v + a - 1` down to a multiple of `a`. -/
def alignUp (value alignment : Nat) : Nat :=
  if alignment ≤ 1 then value
  else ((value + alignment - 1) / alignment) * alignment

/-! ## Layout engine (`layout.py`) -/

/-- `LayoutEngine.__init__`: family weights from blob counts (the
`family in ISA_FAMILIES` test of the source always holds on the key
type `Fam`). -/
def familyWeights (idx : BlobIndex) : List (Fam × Q) :=
  idx.families.filterMap (fun f =>
    let count := idx.blob_count f
    if count > 0 then Option.some (f, Q.ofNat count) else Option.none)

/-- `LayoutEngine._pick_primary_isa`. -/
def pickPrimaryIsa (idx : BlobIndex) (rng : Rng) : Fam × Rng :=
  weightedChoice rng (familyWeights idx) .arm32

/-- The pick loop of `_pick_secondary_isas`: `n` more weighted picks from
`pool`, removing each pick from the pool. -/
def pickSecondariesLoop (rng : Rng) (pool : List (Fam × Q)) :
    Nat → List Fam × Rng
  | 0 => ([], rng)
  | n + 1 =>
    let pick := (weightedChoice rng pool .arm32).1
    let rng' := (weightedChoice rng pool .arm32).2
    let pool' := pool.filter (fun fw => fw.1 != pick)
    if pool' = [] then ([pick], rng')
    else
      let rest := pickSecondariesLoop rng' pool' n
      (pick :: rest.1, rest.2)

/-- `LayoutEngine._pick_secondary_isas`. -/
def pickSecondaryIsas (idx : BlobIndex) (primary : Fam) (rng : Rng) :
    List Fam × Rng :=
  let affinity := MULTI_ISA_AFFINITY primary
  let available := affinity.filter (fun fw => idx.blob_count fw.1 > 0)
  let available' :=
    if available = [] then
      (familyWeights idx).filterMap (fun fw =>
        if fw.1 != primary then Option.some (fw.1, (⟨1, 1⟩ : Q))
        else Option.none)
    else available
  if available' = [] then ([], rng)
  else
    let count := (Rng.chooseFrom [1, 1, 2] 1 rng).1
    pickSecondariesLoop (Rng.chooseFrom [1, 1, 2] 1 rng).2 available'
      (min count available'.length)

/-- `LayoutEngine._pick_header_type`. -/
def pickHeaderType (family : Fam) (rng : Rng) : HType × Rng :=
  let family_info := ISA_FAMILIES family
  if family_info.header_types = [] then (.bare, rng)
  else Rng.chooseFrom family_info.header_types .bare rng

/-- `LayoutEngine._pick_trailer_type`. -/
def pickTrailerType (rng : Rng) : TType × Rng :=
  weightedChoice rng TRAILER_WEIGHTS .none

/-- `LayoutEngine._pick_total_size`.  The source draws
`rng.uniform(log2 min_size, log2 max_size)` and takes `int(2 ** draw)`
(transcendental float arithmetic); it is modelled as one draw yielding an
arbitrary size in `[min_size, max_size]`.  The 256-byte round-up is
exact.  No claim depends on the size distribution. -/
def pickTotalSize (cfg : FirmwareGenConfig) (rng : Rng) : Nat × Rng :=
  (alignUp (Rng.randintN cfg.min_size cfg.max_size rng).1 256,
   (Rng.randintN cfg.min_size cfg.max_size rng).2)

/-- The `header_sizes` estimate dict of `generate_layout` (`.get`
default 64 can never fire on the key type `HType`). -/
def headerSizeEst : HType → Nat
  | .vector_table_cortexm => 64
  | .vector_table_arm => 32
  | .boot_vector_mips => 32
  | .avr_vector_table => 128
  | .msp430_vector_table => 32
  | .uboot => 64
  | .android_boot => 2048
  | .tplink => 512
  | .mediatek => 1024
  | .qualcomm_mbn => 40
  | .bios_boot => 512
  | .uefi_stub => 512
  | .opensbi_stub => 48
  | .bare => 0

/-- `LayoutEngine._pick_non_code_section`: type, size and fill params. -/
def pickNonCodeSection (rng : Rng) (max_size : Nat) :
    (SType × Nat × FillParams) × Rng :=
  let section_type := (weightedChoice rng NON_CODE_WEIGHTS .padding).1
  let rng1 := (weightedChoice rng NON_CODE_WEIGHTS .padding).2
  match section_type with
  | .padding =>
    let pad_max := max 16 (min max_size (min 65536 (max 64 (max_size / 10))))
    let size := (Rng.randintN 16 pad_max rng1).1
    let rng2 := (Rng.randintN 16 pad_max rng1).2
    let pattern := (Rng.chooseFrom [0xFF, 0x00, 0xAA, 0xDE] 0xFF rng2).1
    ((.padding, size, .paddingFill pattern),
     (Rng.chooseFrom [0xFF, 0x00, 0xAA, 0xDE] 0xFF rng2).2)
  | .string_table =>
    let hi := max 64 (min 4096 max_size)
    ((.string_table, (Rng.randintN 64 hi rng1).1, .stringFill),
     (Rng.randintN 64 hi rng1).2)
  | .filesystem =>
    let hi := max 512 (min 65536 max_size)
    let size := (Rng.randintN 512 hi rng1).1
    let rng2 := (Rng.randintN 512 hi rng1).2
    let fs :=
      (Rng.chooseFrom [FsType.squashfs, .jffs2, .cramfs, .romfs] .squashfs rng2).1
    ((.filesystem, size, .fsFill fs),
     (Rng.chooseFrom [FsType.squashfs, .jffs2, .cramfs, .romfs] .squashfs rng2).2)
  | .random =>
    let hi := max 32 (min 8192 max_size)
    ((.random, (Rng.randintN 32 hi rng1).1, .randomFill),
     (Rng.randintN 32 hi rng1).2)
  | .rodata =>
    let hi := max 64 (min 16384 max_size)
    ((.rodata, (Rng.randintN 64 hi rng1).1, .rodataFill),
     (Rng.randintN 64 hi rng1).2)
  | other =>
    let hi := max 16 (min 1024 max_size)
    ((other, (Rng.randintN 16 hi rng1).1, .emptyFill),
     (Rng.randintN 16 hi rng1).2)

/-- State of the code-section loop (step 5c of `generate_layout`). -/
structure CodeState where
  rng : Rng
  sections : List SectionSpec
  cursor : Nat
  code_remaining : Nat
  noncode_budget : Nat
  family_queue : List Fam
deriving Repr

/-- The `while code_remaining >= 64` loop of `generate_layout` (step 5c).
Structural recursion on an explicit fuel so the kernel can evaluate it;
each iteration decreases `code_remaining + family_queue.length`, so any
fuel above the initial value of that measure runs the loop to completion
(`generateLayout` passes such a fuel).  The empty queue at loop entry is
handled like the `break` after the last family is dropped (the queue is
nonempty whenever the source reaches the loop). -/
def codeLoop (idx : BlobIndex) : Nat → CodeState → CodeState
  | 0, st => st
  | fuel + 1, st =>
    if st.code_remaining < 64 then st
    else
      match st.family_queue with
      | [] => st
      | fam :: tail =>
        let queue1 := tail ++ [fam]
        let alignment := (ISA_FAMILIES fam).alignment
        let blobOpt := (idx.get_random_blob fam st.rng).1
        let rng1 := (idx.get_random_blob fam st.rng).2
        match blobOpt with
        | Option.none =>
          let queue2 := queue1.filter (fun f => f != fam)
          if queue2 = [] then
            { st with rng := rng1, family_queue := queue2 }
          else
            codeLoop idx fuel { st with rng := rng1, family_queue := queue2 }
        | Option.some blob =>
          let multiplier := (Rng.chooseFrom [1, 1, 1, 2, 3] 1 rng1).1
          let rng2 := (Rng.chooseFrom [1, 1, 1, 2, 3] 1 rng1).2
          let s1 := min (blob.size_bytes * multiplier) st.code_remaining
          let s2 := max s1 (min blob.size_bytes st.code_remaining)
          let s3 := alignUp s2 alignment
          let section_size :=
            if s3 > st.code_remaining then st.code_remaining else s3
          if section_size < 4 then
            { st with rng := rng2, family_queue := queue1 }
          else
            let aligned_cursor := alignUp st.cursor alignment
            let secs1 :=
              if aligned_cursor > st.cursor then
                st.sections ++
                  [{ offset := st.cursor, size := aligned_cursor - st.cursor,
                     section_type := .padding,
                     fill_params := .paddingFill 0xFF }]
              else st.sections
            let cursor1 := max st.cursor aligned_cursor
            let secs2 := secs1 ++
              [{ offset := cursor1, size := section_size, section_type := .code,
                 alignment := alignment, isa_family := Option.some fam,
                 fill_params := .codeFill fam blob.triple blob.program blob.config }]
            let cursor2 := cursor1 + section_size
            let cr2 := st.code_remaining - section_size
            let q := rng2.randomQ.1
            let rng3 := rng2.randomQ.2
            if q.blt ⟨3, 10⟩ ∧ st.noncode_budget ≥ 64 then
              let pick := (pickNonCodeSection rng3 st.noncode_budget).1
              let rng4 := (pickNonCodeSection rng3 st.noncode_budget).2
              let nc_size := min pick.2.1 st.noncode_budget
              codeLoop idx fuel
                { rng := rng4,
                  sections := secs2 ++
                    [{ offset := cursor2, size := nc_size,
                       section_type := pick.1, fill_params := pick.2.2 }],
                  cursor := cursor2 + nc_size,
                  code_remaining := cr2,
                  noncode_budget := st.noncode_budget - nc_size,
                  family_queue := queue1 }
            else
              codeLoop idx fuel
                { rng := rng3, sections := secs2, cursor := cursor2,
                  code_remaining := cr2, noncode_budget := st.noncode_budget,
                  family_queue := queue1 }

/-- State of the non-code fill loop (step 5d). -/
structure FillState where
  rng : Rng
  sections : List SectionSpec
  cursor : Nat
  noncode_budget : Nat
deriving Repr

/-- The `while noncode_budget >= 32 and cursor < total_size - trailer_size`
loop of `generate_layout` (step 5d).  Fuel-structural; every iteration
consumes at least 16 bytes of `noncode_budget`, so any fuel above the
initial budget runs the loop to completion. -/
def fillLoop (total_size trailer_size : Nat) : Nat → FillState → FillState
  | 0, st => st
  | fuel + 1, st =>
    if st.noncode_budget ≥ 32 ∧ st.cursor < total_size - trailer_size then
      let pick := (pickNonCodeSection st.rng st.noncode_budget).1
      let rng1 := (pickNonCodeSection st.rng st.noncode_budget).2
      let nc_size :=
        min pick.2.1 (min st.noncode_budget (total_size - trailer_size - st.cursor))
      if nc_size < 16 then { st with rng := rng1 }
      else
        fillLoop total_size trailer_size fuel
          { rng := rng1,
            sections := st.sections ++
              [{ offset := st.cursor, size := nc_size, section_type := pick.1,
                 fill_params := pick.2.2 }],
            cursor := st.cursor + nc_size,
            noncode_budget := st.noncode_budget - nc_size }
    else st

/-- `f"fw_{seed}_{seq:06d}"`. -/
def imageId (seed seq : Nat) : String :=
  let s := toString seq
  "fw_" ++ toString seed ++ "_" ++
    (String.mk (List.replicate (6 - s.length) '0') ++ s)

/-- Steps 5a-5f and the record construction of
`LayoutEngine.generate_layout`, after the primary/secondary, header,
trailer and total-size picks have been made. -/
def layoutFromPicks (idx : BlobIndex) (cfg : FirmwareGenConfig) (seq : Nat)
    (primary : Fam) (all_families : List Fam) (header_type : HType)
    (trailer_type : TType) (total_size0 : Nat) (rngE : Rng) : ImageLayout :=
  let trailer_sz := trailerSize trailer_type
  let header_size := headerSizeEst header_type
  let sections0 : List SectionSpec :=
    if header_size > 0 then
      [{ offset := 0, size := header_size, section_type := .header,
         fill_params := .headerFill header_type }]
    else []
  let cursor0 := if header_size > 0 then header_size else 0
  -- Python's `usable_size` may be negative; ℕ-subtraction clamps it to 0,
  -- which selects the same `usable_size < 64` branch.
  let usable0 := total_size0 - cursor0 - trailer_sz
  let total_size := if usable0 < 64 then cursor0 + trailer_sz + 256 else total_size0
  let usable_size := if usable0 < 64 then 256 else usable0
  let code_fraction := (rngE.uniformQ ⟨3, 10⟩ ⟨7, 10⟩).1
  let rngF := (rngE.uniformQ ⟨3, 10⟩ ⟨7, 10⟩).2
  let code_budget := ((Q.ofNat usable_size).mul code_fraction).floorToNat
  let noncode_budget := usable_size - code_budget
  let stC := codeLoop idx (code_budget + all_families.length + 1)
    ⟨rngF, sections0, cursor0, code_budget, noncode_budget, all_families⟩
  let stF := fillLoop total_size trailer_sz (stC.noncode_budget + 1)
    ⟨stC.rng, stC.sections, stC.cursor, stC.noncode_budget⟩
  let gap : Int := (total_size : Int) - (trailer_sz : Int) - (stF.cursor : Int)
  let sections3 :=
    if gap > 0 then
      stF.sections ++
        [{ offset := stF.cursor, size := gap.toNat, section_type := .padding,
           fill_params := .paddingFill 0xFF }]
    else stF.sections
  let cursor3 := if gap > 0 then stF.cursor + gap.toNat else stF.cursor
  let sections4 :=
    if trailer_sz > 0 then
      sections3 ++
        [{ offset := cursor3, size := trailer_sz, section_type := .trailer,
           fill_params := .trailerFill trailer_type }]
    else sections3
  { image_id := imageId cfg.seed seq,
    total_size := total_size,
    primary_isa := primary,
    header_type := header_type,
    trailer_type := trailer_type,
    sections := sections4,
    all_isa_families := all_families,
    seed := cfg.seed + seq }

/-- The secondary-family decision of `generate_layout` (step 2): the
chosen `all_families` list and the RNG afterwards. -/
def pickAllFamilies (idx : BlobIndex) (cfg : FirmwareGenConfig)
    (primary : Fam) (forced_secondaries : Option (List Fam)) (rngA : Rng) :
    List Fam × Rng :=
  match forced_secondaries with
  | Option.some fs => (primary :: fs, rngA)
  | Option.none =>
    if (rngA.randomQ.1).blt cfg.multi_isa_probability then
      (primary :: (pickSecondaryIsas idx primary rngA.randomQ.2).1,
       (pickSecondaryIsas idx primary rngA.randomQ.2).2)
    else ([primary], rngA.randomQ.2)

/-- `LayoutEngine.generate_layout`. -/
def generateLayout (idx : BlobIndex) (cfg : FirmwareGenConfig) (rng : Rng)
    (seq : Nat) (primary_isa : Option Fam)
    (forced_secondaries : Option (List Fam)) : ImageLayout :=
  let primary :=
    match primary_isa with
    | Option.some p => p
    | Option.none => (pickPrimaryIsa idx rng).1
  let rngA :=
    match primary_isa with
    | Option.some _ => rng
    | Option.none => (pickPrimaryIsa idx rng).2
  let all_families := (pickAllFamilies idx cfg primary forced_secondaries rngA).1
  let rngB := (pickAllFamilies idx cfg primary forced_secondaries rngA).2
  let header_type := (pickHeaderType primary rngB).1
  let rngC := (pickHeaderType primary rngB).2
  let trailer_type := (pickTrailerType rngC).1
  let rngD := (pickTrailerType rngC).2
  let total_size0 := (pickTotalSize cfg rngD).1
  let rngE := (pickTotalSize cfg rngD).2
  layoutFromPicks idx cfg seq primary all_families header_type trailer_type
    total_size0 rngE

/-! ## `LayoutEngine.generate_batch` -/

/-- `quotas[fam] += 1` on the association list (families are distinct, so
updating the first hit matches the dict update). -/
def bumpQuota : List (Fam × Nat) → Fam → List (Fam × Nat)
  | [], _ => []
  | (f, q) :: rest, g =>
    if f = g then (f, q + 1) :: rest else (f, q) :: bumpQuota rest g

/-- The `for i in range(leftover)` rounding loop: bump the quota of
`sorted_fams[i % len(sorted_fams)]` once per step. -/
def distributeLeftover (sorted_fams : List (Fam × Q)) :
    List (Fam × Nat) → Nat → Nat → List (Fam × Nat)
  | quotas, 0, _ => quotas
  | quotas, k + 1, i =>
    let f := ((sorted_fams.getD (i % sorted_fams.length) (.arm32, ⟨0, 1⟩)).1)
    distributeLeftover sorted_fams (bumpQuota quotas f) k (i + 1)

/-- The phase-1 quota table: `base_per` per family, plus
`int(remainder * weight / total_weight)` each (the float division of the
source is modelled exactly in `Q`; `int` of the nonnegative value is the
floor), plus the descending-weight rounding loop. -/
def buildQuotas (weights : List (Fam × Q)) (count : Nat) : List (Fam × Nat) :=
  let num_families := weights.length
  let base_per := max 1 (count / num_families)
  let quotas0 := weights.map (fun fw => (fw.1, base_per))
  let allocated0 := base_per * num_families
  -- Python's `remainder` may be negative; ℕ-subtraction clamps to 0 and
  -- the `remainder > 0` test picks the same branch.
  let remainder := count - allocated0
  if remainder > 0 then
    let total_weight : Q := Q.sumList (weights.map Prod.snd)
    let quotas1 := weights.map (fun fw =>
      (fw.1, base_per + (((Q.ofNat remainder).mul fw.2).div total_weight).floorToNat))
    let allocated1 := allocated0 +
      (weights.map (fun fw =>
        (((Q.ofNat remainder).mul fw.2).div total_weight).floorToNat)).sum
    let leftover := count - allocated1
    -- Python sorts stably by descending weight; insertion sort may permute
    -- equal-weight families, which only affects which of two equally
    -- weighted families receives a rounding bump.
    let sorted_fams :=
      List.insertionSort (fun a b => Q.ble b.2 a.2 = true) weights
    distributeLeftover sorted_fams quotas1 leftover 0
  else quotas0

/-- Phase-1 inner loop: `quota` layouts with `fam` forced as primary, each
from a fresh `Random(master_seed + seq)`. -/
def genQuotaLayouts (idx : BlobIndex) (cfg : FirmwareGenConfig)
    (streamOf : Nat → List Nat) (master_seed : Nat) (fam : Fam) :
    Nat → Nat → List ImageLayout × Nat
  | 0, seq => ([], seq)
  | k + 1, seq =>
    let l := generateLayout idx cfg ⟨streamOf (master_seed + seq)⟩ seq
      (Option.some fam) Option.none
    let rest := genQuotaLayouts idx cfg streamOf master_seed fam k (seq + 1)
    (l :: rest.1, rest.2)

/-- Phase 1: iterate the family list in order, emitting each family's
quota. -/
def genPhase1 (idx : BlobIndex) (cfg : FirmwareGenConfig)
    (streamOf : Nat → List Nat) (master_seed : Nat) :
    List (Fam × Nat) → Nat → List ImageLayout × Nat
  | [], seq => ([], seq)
  | (f, q) :: rest, seq =>
    let this := genQuotaLayouts idx cfg streamOf master_seed f q seq
    let later := genPhase1 idx cfg streamOf master_seed rest this.2
    (this.1 ++ later.1, later.2)

/-- `combo_counts[label]` over the phase-1 snapshot. -/
def countLabel (layouts : List ImageLayout) (label : List Fam) : Nat :=
  (layouts.filter (fun l => l.isaLabel = label)).length

/-- Lexicographic comparison of two labels by `famIdx`; this is the string
order of the `'+'`-joined names, because `'+'` precedes every character
that occurs in a family name and names are nonempty. -/
def labelLe : List Fam → List Fam → Bool
  | [], _ => true
  | _ :: _, [] => false
  | a :: as, b :: bs =>
    if famIdx a < famIdx b then true
    else if famIdx b < famIdx a then false
    else labelLe as bs

/-- `sorted(combo_counts)`: the distinct labels of the phase-1 layouts in
sorted order. -/
def sortedComboLabels (layouts : List ImageLayout) : List (List Fam) :=
  List.insertionSort (fun a b => labelLe a b = true)
    ((layouts.map ImageLayout.isaLabel).dedup)

/-- Phase-2 top-up loop: `needed` forced-combo layouts with the given
primary/secondaries. -/
def genForcedLayouts (idx : BlobIndex) (cfg : FirmwareGenConfig)
    (streamOf : Nat → List Nat) (master_seed : Nat) (primary : Fam)
    (secondaries : List Fam) : Nat → Nat → List ImageLayout × Nat
  | 0, seq => ([], seq)
  | k + 1, seq =>
    let l := generateLayout idx cfg ⟨streamOf (master_seed + seq)⟩ seq
      (Option.some primary) (Option.some secondaries)
    let rest :=
      genForcedLayouts idx cfg streamOf master_seed primary secondaries k (seq + 1)
    (l :: rest.1, rest.2)

/-- Phase 2: for each sorted label short of `min_images_per_combo`, append
forced-combo layouts reproducing exactly that combo.  `phase1` is the
snapshot the counts and first-primary lookups are taken from. -/
def genPhase2 (idx : BlobIndex) (cfg : FirmwareGenConfig)
    (streamOf : Nat → List Nat) (master_seed : Nat)
    (phase1 : List ImageLayout) :
    List (List Fam) → Nat → List ImageLayout × Nat
  | [], seq => ([], seq)
  | label :: rest, seq =>
    let needed : Int :=
      (cfg.min_images_per_combo : Int) - (countLabel phase1 label : Int)
    if needed ≤ 0 then genPhase2 idx cfg streamOf master_seed phase1 rest seq
    else
      let primary :=
        (((phase1.find? (fun l => l.isaLabel = label)).map
          ImageLayout.primary_isa).getD .arm32)
      let secondaries := label.filter (fun f => f != primary)
      let this := genForcedLayouts idx cfg streamOf master_seed primary
        secondaries needed.toNat seq
      let later := genPhase2 idx cfg streamOf master_seed phase1 rest this.2
      (this.1 ++ later.1, later.2)

/-- Swap two (in-bounds) positions of a list, as Python's
`x[i], x[j] = x[j], x[i]`. -/
def listSwap {α : Type} (l : List α) (i j : Nat) : List α :=
  match l[i]?, l[j]? with
  | Option.some a, Option.some b => (l.set i b).set j a
  | _, _ => l

/-- The `for i in reversed(range(1, len(x)))` loop of `random.shuffle`:
at index `i`, draw `j` uniform on `[0, i]` and swap. -/
def pyShuffleGo {α : Type} (rng : Rng) (l : List α) : Nat → List α × Rng
  | 0 => (l, rng)
  | i + 1 =>
    let j := rng.next.1 % (i + 2)
    pyShuffleGo rng.next.2 (listSwap l (i + 1) j) i

/-- `random.Random.shuffle`. -/
def pyShuffle {α : Type} (rng : Rng) (l : List α) : List α × Rng :=
  pyShuffleGo rng l (l.length - 1)

/-- `LayoutEngine.generate_batch`.  `streamOf` is the random oracle mapping
a seed to the draw stream of `Random(seed)` (the same function both for the
per-image `Random(master_seed + seq)` objects and for the final
`Random(master_seed)` shuffle). -/
def generateBatch (idx : BlobIndex) (cfg : FirmwareGenConfig)
    (streamOf : Nat → List Nat) (count : Nat) (master_seed : Nat) :
    List ImageLayout :=
  let weights := familyWeights idx
  let quotas := buildQuotas weights count
  let phase1 := (genPhase1 idx cfg streamOf master_seed quotas 0).1
  let seq1 := (genPhase1 idx cfg streamOf master_seed quotas 0).2
  let labels := sortedComboLabels phase1
  let phase2 := (genPhase2 idx cfg streamOf master_seed phase1 labels seq1).1
  let layouts := phase1 ++ phase2
  (pyShuffle ⟨streamOf master_seed⟩ layouts).1

/-! ## Bytes, `struct.pack` helpers, and byte readers -/

/-- `struct.pack("<H", n)`.  Packing reduces each byte mod 256; every call
site passes a value below the field's range (Python would raise
otherwise). -/
def u16le (n : Nat) : List Nat := [n % 256, n / 256 % 256]

/-- `struct.pack(">H", n)`. -/
def u16be (n : Nat) : List Nat := [n / 256 % 256, n % 256]

/-- `struct.pack("<I", n)`. -/
def u32le (n : Nat) : List Nat :=
  [n % 256, n / 256 % 256, n / 65536 % 256, n / 16777216 % 256]

/-- `struct.pack(">I", n)`. -/
def u32be (n : Nat) : List Nat :=
  [n / 16777216 % 256, n / 65536 % 256, n / 256 % 256, n % 256]

/-- `struct.pack("<Q", n)`. -/
def u64le (n : Nat) : List Nat :=
  u32le (n % 4294967296) ++ u32le (n / 4294967296)

/-- Bytes of a string literal: every literal this file passes is pure
ASCII, where the UTF-8 encoding is exactly the character codes. -/
def strBytes (s : String) : List Nat :=
  s.data.map Char.toNat

/-- `bytes.ljust(width, b"\x00")` as used for fixed-width name fields;
also truncates first as the `name[:32]` call sites do. -/
def padTrunc (data : List Nat) (width : Nat) : List Nat :=
  (data.take width) ++ List.replicate (width - data.length) 0

/-- Read (up to) four bytes starting at the head, little-endian (missing
bytes read as 0; a spec-side reader). -/
def readHeadLE : List Nat → Nat
  | b0 :: b1 :: b2 :: b3 :: _ =>
    b0 + 256 * b1 + 65536 * b2 + 16777216 * b3
  | [b0, b1, b2] => b0 + 256 * b1 + 65536 * b2
  | [b0, b1] => b0 + 256 * b1
  | [b0] => b0
  | [] => 0

/-- Read a little-endian u32 at `off`. -/
def readLE32 (data : List Nat) (off : Nat) : Nat :=
  readHeadLE (data.drop off)

/-- Read (up to) four bytes starting at the head, big-endian. -/
def readHeadBE : List Nat → Nat
  | b0 :: b1 :: b2 :: b3 :: _ =>
    16777216 * b0 + 65536 * b1 + 256 * b2 + b3
  | [b0, b1, b2] => 16777216 * b0 + 65536 * b1 + 256 * b2
  | [b0, b1] => 16777216 * b0 + 65536 * b1
  | [b0] => 16777216 * b0
  | [] => 0

/-- Read a big-endian u32 at `off`. -/
def readBE32 (data : List Nat) (off : Nat) : Nat :=
  readHeadBE (data.drop off)

/-- Python `buf[a:a+len(d)] = d` on a `bytearray`: replaces the (clamped)
slice, extending the buffer when the slice reaches past its end. -/
def pySliceAssign {α : Type} (buf : List α) (a : Nat) (data : List α) :
    List α :=
  buf.take a ++ data ++ buf.drop (a + data.length)

/-! ## Checksums: `zlib.crc32`, `hashlib.md5`, `hashlib.sha256` -/

/-- One reflected CRC-32 bit step (polynomial `0xEDB88320`). -/
def crc32Bit (crc : Nat) : Nat :=
  if crc % 2 = 1 then (crc / 2) ^^^ 0xEDB88320 else crc / 2

/-- Eight bit steps. -/
def crc32Bits (crc : Nat) : Nat → Nat
  | 0 => crc
  | k + 1 => crc32Bits (crc32Bit crc) k

/-- Absorb one byte. -/
def crc32Update (crc b : Nat) : Nat := crc32Bits (crc ^^^ (b % 256)) 8

/-- `zlib.crc32(data) & 0xFFFFFFFF`. -/
def crc32 (data : List Nat) : Nat :=
  (data.foldl crc32Update 0xFFFFFFFF) ^^^ 0xFFFFFFFF

/-- 32-bit left rotation (inputs below `2^32`). -/
def rotl32 (x n : Nat) : Nat :=
  ((x * 2 ^ (n % 32)) + x / 2 ^ (32 - n % 32)) % 4294967296

/-- 32-bit complement. -/
def not32 (x : Nat) : Nat := x ^^^ 0xFFFFFFFF

/-- The 64 MD5 sine constants. -/
def md5K : List Nat :=
  [0xd76aa478, 0xe8c7b756, 0x242070db, 0xc1bdceee,
   0xf57c0faf, 0x4787c62a, 0xa8304613, 0xfd469501,
   0x698098d8, 0x8b44f7af, 0xffff5bb1, 0x895cd7be,
   0x6b901122, 0xfd987193, 0xa679438e, 0x49b40821,
   0xf61e2562, 0xc040b340, 0x265e5a51, 0xe9b6c7aa,
   0xd62f105d, 0x02441453, 0xd8a1e681, 0xe7d3fbc8,
   0x21e1cde6, 0xc33707d6, 0xf4d50d87, 0x455a14ed,
   0xa9e3e905, 0xfcefa3f8, 0x676f02d9, 0x8d2a4c8a,
   0xfffa3942, 0x8771f681, 0x6d9d6122, 0xfde5380c,
   0xa4beea44, 0x4bdecfa9, 0xf6bb4b60, 0xbebfbc70,
   0x289b7ec6, 0xeaa127fa, 0xd4ef3085, 0x04881d05,
   0xd9d4d039, 0xe6db99e5, 0x1fa27cf8, 0xc4ac5665,
   0xf4292244, 0x432aff97, 0xab9423a7, 0xfc93a039,
   0x655b59c3, 0x8f0ccc92, 0xffeff47d, 0x85845dd1,
   0x6fa87e4f, 0xfe2ce6e0, 0xa3014314, 0x4e0811a1,
   0xf7537e82, 0xbd3af235, 0x2ad7d2bb, 0xeb86d391]

/-- The 64 MD5 per-round shift amounts. -/
def md5S : List Nat :=
  [7, 12, 17, 22, 7, 12, 17, 22, 7, 12, 17, 22, 7, 12, 17, 22,
   5, 9, 14, 20, 5, 9, 14, 20, 5, 9, 14, 20, 5, 9, 14, 20,
   4, 11, 16, 23, 4, 11, 16, 23, 4, 11, 16, 23, 4, 11, 16, 23,
   6, 10, 15, 21, 6, 10, 15, 21, 6, 10, 15, 21, 6, 10, 15, 21]

/-- One MD5 round on the state `(a, b, c, d)` with message block `m`. -/
def md5Round (m : List Nat) (st : Nat × Nat × Nat × Nat) (i : Nat) :
    Nat × Nat × Nat × Nat :=
  let (a, b, c, d) := st
  let f :=
    if i < 16 then (b &&& c) ||| (not32 b &&& d)
    else if i < 32 then (d &&& b) ||| (not32 d &&& c)
    else if i < 48 then b ^^^ c ^^^ d
    else c ^^^ (b ||| not32 d)
  let g :=
    if i < 16 then i
    else if i < 32 then (5 * i + 1) % 16
    else if i < 48 then (3 * i + 5) % 16
    else (7 * i) % 16
  let sum := (a + f + md5K.getD i 0 + readLE32 m (4 * g)) % 4294967296
  (d, (b + rotl32 sum (md5S.getD i 0)) % 4294967296, b, c)

/-- Process one 64-byte block. -/
def md5Block (st : Nat × Nat × Nat × Nat) (m : List Nat) :
    Nat × Nat × Nat × Nat :=
  let (a0, b0, c0, d0) := st
  let (a, b, c, d) := (List.range 64).foldl (md5Round m) st
  ((a0 + a) % 4294967296, (b0 + b) % 4294967296,
   (c0 + c) % 4294967296, (d0 + d) % 4294967296)

/-- Split into 64-byte blocks (fuel-structural; `chunks64` passes a fuel
that always suffices). -/
def chunks64Go : Nat → List Nat → List (List Nat)
  | 0, _ => []
  | _, [] => []
  | fuel + 1, x :: rest => (x :: rest).take 64 :: chunks64Go fuel ((x :: rest).drop 64)

/-- Split into 64-byte blocks. -/
def chunks64 (l : List Nat) : List (List Nat) :=
  chunks64Go (l.length + 1) l

/-- Merkle–Damgård padding shared by MD5 (LE length) and SHA-256 (BE
length). -/
def mdPad (data : List Nat) (lenBytes : List Nat) : List Nat :=
  data ++ 0x80 :: List.replicate ((119 - data.length % 64) % 64) 0 ++ lenBytes

/-- `hashlib.md5(data).digest()`. -/
def md5 (data : List Nat) : List Nat :=
  let padded := mdPad data (u64le (8 * data.length))
  let r := (chunks64 padded).foldl md5Block
    (0x67452301, 0xefcdab89, 0x98badcfe, 0x10325476)
  u32le r.1 ++ u32le r.2.1 ++ u32le r.2.2.1 ++ u32le r.2.2.2

/-- The 64 SHA-256 round constants (FIPS 180-4, written in decimal). -/
def sha256K : List Nat :=
  [1116352408, 1899447441, 3049323471, 3921009573, 961987163, 1508970993,
   2453635748, 2870763221, 3624381080, 310598401, 607225278, 1426881987,
   1925078388, 2162078206, 2614888103, 3248222580, 3835390401, 4022224774,
   264347078, 604807628, 770255983, 1249150122, 1555081692, 1996064986,
   2554220882, 2821834349, 2952996808, 3210313671, 3336571891, 3584528711,
   113926993, 338241895, 666307205, 773529912, 1294757372, 1396182291,
   1695183700, 1986661051, 2177026350, 2456956037, 2730485921, 2820302411,
   3259730800, 3345764771, 3516065817, 3600352804, 4094571909, 275423344,
   430227734, 506948616, 659060556, 883997877, 958139571, 1322822218,
   1537002063, 1747873779, 1955562222, 2024104815, 2227730452, 2361852424,
   2428436474, 2756734187, 3204031479, 3329325298]

/-- 32-bit right rotation. -/
def rotr32 (x n : Nat) : Nat := rotl32 x (32 - n % 32)

/-- Message-schedule extension: words `16..63`. -/
def sha256Extend (w : List Nat) : Nat → List Nat
  | 0 => w
  | k + 1 =>
    let i := w.length
    let w15 := w.getD (i - 15) 0
    let w2 := w.getD (i - 2) 0
    let s0 := rotr32 w15 7 ^^^ rotr32 w15 18 ^^^ (w15 / 8)
    let s1 := rotr32 w2 17 ^^^ rotr32 w2 19 ^^^ (w2 / 1024)
    sha256Extend (w ++ [(w.getD (i - 16) 0 + s0 + w.getD (i - 7) 0 + s1) % 4294967296]) k

/-- One SHA-256 compression round. -/
def sha256Round (w : List Nat)
    (st : Nat × Nat × Nat × Nat × Nat × Nat × Nat × Nat) (i : Nat) :
    Nat × Nat × Nat × Nat × Nat × Nat × Nat × Nat :=
  let (a, b, c, d, e, f, g, h) := st
  let s1 := rotr32 e 6 ^^^ rotr32 e 11 ^^^ rotr32 e 25
  let ch := (e &&& f) ^^^ (not32 e &&& g)
  let temp1 := (h + s1 + ch + sha256K.getD i 0 + w.getD i 0) % 4294967296
  let s0 := rotr32 a 2 ^^^ rotr32 a 13 ^^^ rotr32 a 22
  let maj := (a &&& b) ^^^ (a &&& c) ^^^ (b &&& c)
  let temp2 := (s0 + maj) % 4294967296
  ((temp1 + temp2) % 4294967296, a, b, c, (d + temp1) % 4294967296, e, f, g)

/-- Process one 64-byte block. -/
def sha256Block (st : Nat × Nat × Nat × Nat × Nat × Nat × Nat × Nat)
    (m : List Nat) : Nat × Nat × Nat × Nat × Nat × Nat × Nat × Nat :=
  let w0 := (List.range 16).map (fun i => readBE32 m (4 * i))
  let w := sha256Extend w0 48
  let (a0, b0, c0, d0, e0, f0, g0, h0) := st
  let (a, b, c, d, e, f, g, h) := (List.range 64).foldl (sha256Round w) st
  ((a0 + a) % 4294967296, (b0 + b) % 4294967296, (c0 + c) % 4294967296,
   (d0 + d) % 4294967296, (e0 + e) % 4294967296, (f0 + f) % 4294967296,
   (g0 + g) % 4294967296, (h0 + h) % 4294967296)

/-- Big-endian 64-bit length field for SHA-256 padding. -/
def u64be (n : Nat) : List Nat :=
  (u64le n).reverse

/-- `hashlib.sha256(data).digest()`. -/
def sha256 (data : List Nat) : List Nat :=
  let padded := mdPad data (u64be (8 * data.length))
  let r := (chunks64 padded).foldl sha256Block
    (0x6a09e667, 0xbb67ae85, 0x3c6ef372, 0xa54ff53a,
     0x510e527f, 0x9b05688c, 0x1f83d9ab, 0x5be0cd19)
  u32be r.1 ++ u32be r.2.1 ++ u32be r.2.2.1 ++ u32be r.2.2.2.1 ++
    u32be r.2.2.2.2.1 ++ u32be r.2.2.2.2.2.1 ++ u32be r.2.2.2.2.2.2.1 ++
    u32be r.2.2.2.2.2.2.2

/-! ## Header and trailer generators (`headers.py`)

The `metadata` dicts of `HeaderResult`/`TrailerResult` are transient
(copied into sidecar `details` fields no claim inspects) and are omitted. -/

/-- `HeaderResult`. -/
structure HeaderResult where
  data : List Nat
  entry_point_offset : Nat
deriving Repr, DecidableEq

/-- `TrailerResult`. -/
structure TrailerResult where
  data : List Nat
deriving Repr, DecidableEq

/-- The handler-vector loop of `vector_table_cortexm` (one
`randint(0, 0x1000)` per remaining vector). -/
def cortexmHandlers (base_addr num_vectors : Nat) :
    Nat → Rng → List Nat × Rng
  | 0, rng => ([], rng)
  | k + 1, rng =>
    let r := (Rng.randintN 0 0x1000 rng).1
    let rng1 := (Rng.randintN 0 0x1000 rng).2
    let handler := (base_addr + num_vectors * 4 + r) ||| 1
    let rest := cortexmHandlers base_addr num_vectors k rng1
    (handler :: rest.1, rest.2)

/-- `vector_table_cortexm`. -/
def vector_table_cortexm (rng : Rng) (base_addr : Nat) : HeaderResult × Rng :=
  let num_vectors := (Rng.chooseFrom [16, 32, 48, 64] 16 rng).1
  let rng1 := (Rng.chooseFrom [16, 32, 48, 64] 16 rng).2
  let sp :=
    (Rng.chooseFrom [0x20005000, 0x20010000, 0x20020000, 0x20040000]
      0x20005000 rng1).1
  let rng2 :=
    (Rng.chooseFrom [0x20005000, 0x20010000, 0x20020000, 0x20040000]
      0x20005000 rng1).2
  let reset_addr := (base_addr + num_vectors * 4) ||| 1
  let handlers :=
    (cortexmHandlers base_addr num_vectors (num_vectors - 2) rng2).1
  let rng3 :=
    (cortexmHandlers base_addr num_vectors (num_vectors - 2) rng2).2
  let vectors := sp :: reset_addr :: handlers
  let data := vectors.flatMap u32le
  (⟨data, data.length⟩, rng3)

/-- The 8-instruction loop of `vector_table_arm`; Python's
`(target - i*4 - 8) >> 2` floors and its `& 0xFFFFFF` takes the
two's-complement residue, i.e. `Int.fdiv` and `Int.emod`. -/
def armVectors (fmt : Nat → List Nat) (i : Nat) : Nat → Rng → List Nat × Rng
  | 0, rng => ([], rng)
  | k + 1, rng =>
    let (t, rng1) := Rng.randintN 0 0x800 rng
    let target_offset := 32 + t
    let branch_offset :=
      ((((target_offset : Int) - (i * 4 : Nat) - 8).fdiv 4).emod 16777216).toNat
    let instr := 0xEA000000 ||| branch_offset
    let (rest, rng2) := armVectors fmt (i + 1) k rng1
    (fmt instr ++ rest, rng2)

/-- `vector_table_arm`. -/
def vector_table_arm (endianness : Endian) (rng : Rng) : HeaderResult × Rng :=
  let fmt := match endianness with
    | .little => u32le
    | .big => u32be
  let (data, rng1) := armVectors fmt 0 8 rng
  (⟨data, data.length⟩, rng1)

/-- `boot_vector_mips`. -/
def boot_vector_mips (endianness : Endian) (rng : Rng) (base_addr : Nat) :
    HeaderResult × Rng :=
  let fmt := match endianness with
    | .big => u32be
    | .little => u32le
  let target := base_addr + 32
  let upper := (target / 65536) % 65536
  let lower := target % 65536
  let instrs := [0x3C080000 ||| upper, 0x35080000 ||| lower,
    0x01000008, 0x00000000, 0, 0, 0, 0]
  let data := instrs.flatMap fmt
  (⟨data, data.length⟩, rng)

/-- The JMP-encoding loop of `avr_vector_table`. -/
def avrJmpVectors (num_vectors : Nat) : Nat → Rng → List Nat × Rng
  | 0, rng => ([], rng)
  | k + 1, rng =>
    let (r, rng1) := Rng.randintN 0 0x100 rng
    let target := num_vectors * 4 + r
    let lo := target % 65536
    let hi := (target / 65536) % 64
    let word1 := 0x940C ||| ((hi &&& 0x3E) * 8) ||| (hi &&& 0x01)
    let (rest, rng2) := avrJmpVectors num_vectors k rng1
    (u16le word1 ++ u16le lo ++ rest, rng2)

/-- The RJMP-encoding loop of `avr_vector_table`
(`target = num_vectors - i - 1 + randint(0, 0x20)`). -/
def avrRjmpVectors (num_vectors : Nat) (i : Nat) : Nat → Rng → List Nat × Rng
  | 0, rng => ([], rng)
  | k + 1, rng =>
    let (r, rng1) := Rng.randintN 0 0x20 rng
    let target_offset := (num_vectors - i - 1 + r) % 4096
    let rjmp := 0xC000 ||| target_offset
    let (rest, rng2) := avrRjmpVectors num_vectors (i + 1) k rng1
    (u16le rjmp ++ rest, rng2)

/-- `avr_vector_table`. -/
def avr_vector_table (rng : Rng) : HeaderResult × Rng :=
  let (use_jmp, rng1) := Rng.chooseFrom [true, false] true rng
  let (num_vectors, rng2) := Rng.chooseFrom [26, 35, 57] 26 rng1
  let (data, rng3) :=
    if use_jmp then avrJmpVectors num_vectors num_vectors rng2
    else avrRjmpVectors num_vectors 0 num_vectors rng2
  (⟨data, data.length⟩, rng3)

/-- The 16-vector loop of `msp430_vector_table`
(`(code_base + randint(0, 0x1000)) & 0xFFFE`). -/
def msp430Vectors (code_base : Nat) : Nat → Rng → List Nat × Rng
  | 0, rng => ([], rng)
  | k + 1, rng =>
    let (r, rng1) := Rng.randintN 0 0x1000 rng
    let addr := (code_base + r) % 65536 / 2 * 2
    let (rest, rng2) := msp430Vectors code_base k rng1
    (u16le addr ++ rest, rng2)

/-- `msp430_vector_table` (entry point 0: vectors live at the end of
flash). -/
def msp430_vector_table (rng : Rng) : HeaderResult × Rng :=
  let (code_base, rng1) :=
    Rng.chooseFrom [0xC000, 0xC200, 0xE000, 0xF000] 0xC000 rng
  let (data, rng2) := msp430Vectors code_base 16 rng1
  (⟨data, 0⟩, rng2)

/-- `arch_map.get(family, 0)` of `uboot`. -/
def ubootArch : Fam → Nat
  | .arm32 => 2 | .thumb => 2 | .aarch64 => 22
  | .x86 => 6 | .x86_64 => 6
  | .mips32_be => 5 | .mips32_le => 5 | .mips64_be => 5 | .mips64_le => 5
  | .ppc32 => 7 | .ppc64_be => 7 | .ppc64_le => 7
  | .riscv32 => 27 | .riscv64 => 27
  | _ => 0

/-- The five image-name byte strings of `uboot`. -/
def ubootNames : List (List Nat) :=
  [strBytes "Linux Kernel Image", strBytes "U-Boot Firmware",
   strBytes "Ramdisk Image", strBytes "FIT Image",
   strBytes "OpenWrt firmware"]

/-- `uboot`: the 64-byte U-Boot legacy header.  All fields big-endian;
`now` is `int(time.time())`, which enters the `timestamp` field (and
through it the header CRC). -/
def uboot (rng : Rng) (total_size base_addr : Nat) (family : Fam)
    (now : Nat) : HeaderResult × Rng :=
  let data_size := (total_size - 64) % 4294967296
  let magic := 0x27051956
  let (tsOff, rng1) := Rng.randintN 0 (365 * 24 * 3600) rng
  let timestamp := (((now : Int) - (tsOff : Int)).emod 4294967296).toNat
  let load_addr := base_addr % 4294967296
  let ep := load_addr
  let (os_type, rng2) := Rng.chooseFrom [5, 17, 20] 5 rng1
  let arch := ubootArch family
  let (img_type, rng3) := Rng.chooseFrom [2, 5] 2 rng2
  let (comp, rng4) := Rng.chooseFrom [0, 1, 2, 3] 0 rng3
  let (name, rng5) := Rng.chooseFrom ubootNames [] rng4
  let name_padded := padTrunc name 32
  let header := u32be magic ++ u32be 0 ++ u32be timestamp ++
    u32be data_size ++ u32be load_addr ++ u32be ep ++ u32be 0 ++
    [os_type % 256, arch % 256, img_type % 256, comp % 256] ++ name_padded
  let header_for_crc := header.take 4 ++ [0, 0, 0, 0] ++ header.drop 8
  let crc := crc32 header_for_crc
  let header' := header.take 4 ++ u32be crc ++ header.drop 8
  (⟨header', 64⟩, rng5)

/-- The three cmdline byte strings of `android_boot`. -/
def androidCmdlines : List (List Nat) :=
  [strBytes "console=ttyMSM0,115200n8 androidboot.console=ttyMSM0",
   strBytes "console=ttyS0,115200 root=/dev/ram0 androidboot.hardware=qcom",
   strBytes "console=ttyHSL0,115200,n8 androidboot.console=ttyHSL0"]

/-- `android_boot` (2048 bytes).  Python raises for `total_size < 2048`
(negative `kernel_size`); ℕ-subtraction clamps instead — the layout engine
always reserves 2048 and keeps `total_size` above it. -/
def android_boot (rng : Rng) (total_size : Nat) : HeaderResult × Rng :=
  let kernel_size := (total_size - 2048) % 4294967296
  let (header_version, rng1) := Rng.chooseFrom [0, 1] 0 rng
  let (cmdline, rng2) := Rng.chooseFrom androidCmdlines [] rng1
  let (sha, rng3) := Rng.randbytesN 32 rng2
  let header := strBytes "ANDROID!" ++ u32le kernel_size ++
    u32le 0x10008000 ++ u32le 0 ++ u32le 0x11000000 ++ u32le 0 ++
    u32le 0x10F00000 ++ u32le 0x10000100 ++ u32le 2048 ++
    u32le header_version ++ u32le 0 ++ padTrunc cmdline 512 ++ sha ++
    List.replicate 1024 0
  let padded := header ++ List.replicate (2048 - header.length) 0
  (⟨padded.take 2048, 2048⟩, rng3)

/-- `tplink` (512 bytes). -/
def tplink (rng : Rng) (total_size : Nat) : HeaderResult × Rng :=
  let buf0 : List Nat := List.replicate 512 0
  let (vendor, rng1) := Rng.chooseFrom
    [strBytes "TP-LINK Technologies", strBytes "TP-LINK", strBytes "Archer"]
    [] rng
  let buf1 := pySliceAssign buf0 0 vendor
  let (v1, rng2) := Rng.randintN 1 5 rng1
  let (v2, rng3) := Rng.randintN 0 20 rng2
  let (v3, rng4) := Rng.randintN 0 9 rng3
  let ver := strBytes ("ver. " ++ toString v1 ++ "." ++ toString v2 ++ "." ++
    toString v3)
  let buf2 := pySliceAssign buf1 32 ver
  let (hw, rng5) := Rng.chooseFrom
    [0x00000001, 0x07500002, 0x09700001, 0x0C500001] 1 rng4
  let buf3 := pySliceAssign buf2 64 (u32be hw)
  let buf4 := pySliceAssign buf3 68 (u32be (total_size % 4294967296))
  let (md5ph, rng6) := Rng.randbytesN 16 rng5
  let buf5 := pySliceAssign buf4 76 md5ph
  (⟨buf5, 512⟩, rng6)

/-- `mediatek` (512/1024/2048 bytes).  `boot_len = total_size - size` can
be negative in Python (a `struct.error` crash, reachable when the layout
reserved 1024 bytes and the draw picks 2048); the model packs the
two's-complement residue instead, a path never exercised by a claim. -/
def mediatek (rng : Rng) (total_size : Nat) : HeaderResult × Rng :=
  let (size, rng1) := Rng.chooseFrom [512, 1024, 2048] 512 rng
  let buf0 : List Nat := List.replicate size 0
  let (magic, rng2) :=
    Rng.chooseFrom [strBytes "BRLYT", strBytes "BLOADER"] [] rng1
  let buf1 := pySliceAssign buf0 0 magic
  let (version, rng3) := Rng.randintN 1 4 rng2
  let buf2 := pySliceAssign buf1 8 (u32le version)
  let buf3 := pySliceAssign buf2 12 (u32le size)
  let boot_len := (((total_size : Int) - (size : Int)).emod 4294967296).toNat
  let buf4 := pySliceAssign buf3 16 (u32le boot_len)
  let (dev_info, rng4) := Rng.chooseFrom
    [strBytes "MT7621", strBytes "MT7628", strBytes "MT6753",
     strBytes "MT8173"] [] rng3
  let buf5 := pySliceAssign buf4 32 dev_info
  (⟨buf5, size⟩, rng4)

/-- `qualcomm_mbn` (40 bytes). -/
def qualcomm_mbn (rng : Rng) (total_size base_addr : Nat) :
    HeaderResult × Rng :=
  let (image_id, rng1) := Rng.chooseFrom [0x03, 0x05, 0x07, 0x0D, 0x15] 3 rng
  let code_size := (((total_size : Int) - 40).emod 4294967296).toNat
  let data := u32le image_id ++ u32le 3 ++ u32le 40 ++
    u32le (base_addr % 4294967296) ++ u32le code_size ++ u32le 0 ++
    u32le 0 ++ u32le 0 ++ u32le 0 ++ u32le 0x00000005
  (⟨data, 40⟩, rng1)

/-- `bios_boot` (512 bytes). -/
def bios_boot (rng : Rng) : HeaderResult × Rng :=
  let buf0 : List Nat := List.replicate 512 0
  let (jmp_offset, rng1) := Rng.randintN 0x3C 0x58 rng
  let buf1 := pySliceAssign buf0 0 [0xEB, jmp_offset, 0x90]
  let (oem, rng2) := Rng.chooseFrom
    [strBytes "MSWIN4.1", strBytes "mkdosfs ", strBytes "MSDOS5.0",
     strBytes "IBM  3.3"] [] rng1
  let buf2 := pySliceAssign buf1 3 oem
  let buf3 := pySliceAssign buf2 11 (u16le 512)
  let (spc, rng3) := Rng.chooseFrom [1, 2, 4, 8] 1 rng2
  let buf4 := pySliceAssign buf3 13 [spc]
  let (rsv, rng4) := Rng.chooseFrom [1, 32] 1 rng3
  let buf5 := pySliceAssign buf4 14 (u16le rsv)
  let buf6 := pySliceAssign buf5 16 [2]
  let (roots, rng5) := Rng.chooseFrom [0, 512] 0 rng4
  let buf7 := pySliceAssign buf6 17 (u16le roots)
  let buf8 := pySliceAssign buf7 19 (u16le 0)
  let buf9 := pySliceAssign buf8 21 [0xF8]
  let buf10 := pySliceAssign buf9 510 [0x55, 0xAA]
  (⟨buf10, jmp_offset + 2⟩, rng5)

/-- `machine_map.get(family, 0x8664)` of `uefi_stub`. -/
def uefiMachine : Fam → Nat
  | .x86 => 0x014C
  | .x86_64 => 0x8664
  | .aarch64 => 0xAA64
  | .arm32 => 0x01C2
  | .riscv32 => 0x5032
  | .riscv64 => 0x5064
  | _ => 0x8664

/-- `uefi_stub` (512/768/1024 bytes); `now` enters the COFF timestamp
field at `0x88`. -/
def uefi_stub (rng : Rng) (family : Fam) (now : Nat) : HeaderResult × Rng :=
  let (size, rng1) := Rng.chooseFrom [512, 768, 1024] 512 rng
  let buf0 : List Nat := List.replicate size 0
  let buf1 := pySliceAssign buf0 0 (strBytes "MZ")
  let buf2 := pySliceAssign buf1 0x3C (u32le 0x80)
  let buf3 := pySliceAssign buf2 0x80 [0x50, 0x45, 0, 0]
  let machine := uefiMachine family
  let buf4 := pySliceAssign buf3 0x84 (u16le machine)
  let buf5 := pySliceAssign buf4 0x86 (u16le 1)
  let buf6 := pySliceAssign buf5 0x88 (u32le (now % 4294967296))
  let buf7 := pySliceAssign buf6 0x94 (u16le 0xF0)
  let buf8 := pySliceAssign buf7 0x96 (u16le 0x0022)
  (⟨buf8, size⟩, rng1)

/-- `opensbi_stub` (48 bytes). -/
def opensbi_stub (rng : Rng) (total_size : Nat) : HeaderResult × Rng :=
  let imm := 48
  let imm_20 := (imm / 1048576) % 2
  let imm_10_1 := (imm / 2) % 1024
  let imm_11 := (imm / 2048) % 2
  let imm_19_12 := (imm / 4096) % 256
  let jal := imm_20 * 2147483648 + imm_10_1 * 2097152 + imm_11 * 1048576 +
    imm_19_12 * 4096 + 0x6F
  let buf0 : List Nat := List.replicate 48 0
  let buf1 := pySliceAssign buf0 0 (u32le jal)
  let buf2 := pySliceAssign buf1 4 (u64le 0x4F53424900000002)
  let buf3 := pySliceAssign buf2 12 (u32le 48)
  let buf4 := pySliceAssign buf3 16 (u32le (total_size % 4294967296))
  (⟨buf4, 48⟩, rng)

/-- `bare`. -/
def bareHeader (rng : Rng) : HeaderResult × Rng := (⟨[], 0⟩, rng)

/-- `generate_header`: the `HEADER_REGISTRY` dispatch.  The kwargs every
call site passes (`total_size`, `base_addr`, `family_name`) are explicit
arguments; `now` is the wall clock. -/
def generateHeader (header_type : HType) (endianness : Endian) (rng : Rng)
    (total_size base_addr : Nat) (family : Fam) (now : Nat) :
    HeaderResult × Rng :=
  match header_type with
  | .vector_table_cortexm => vector_table_cortexm rng base_addr
  | .vector_table_arm => vector_table_arm endianness rng
  | .boot_vector_mips => boot_vector_mips endianness rng base_addr
  | .avr_vector_table => avr_vector_table rng
  | .msp430_vector_table => msp430_vector_table rng
  | .uboot => uboot rng total_size base_addr family now
  | .android_boot => android_boot rng total_size
  | .tplink => tplink rng total_size
  | .mediatek => mediatek rng total_size
  | .qualcomm_mbn => qualcomm_mbn rng total_size base_addr
  | .bios_boot => bios_boot rng
  | .uefi_stub => uefi_stub rng family now
  | .opensbi_stub => opensbi_stub rng total_size
  | .bare => bareHeader rng

/-- `generate_trailer`: the `TRAILER_REGISTRY` dispatch. -/
def generateTrailer (trailer_type : TType) (image_data : List Nat) :
    TrailerResult :=
  match trailer_type with
  | .crc32 => ⟨u32le (crc32 image_data)⟩
  | .md5 => ⟨md5 image_data⟩
  | .sha256 => ⟨sha256 image_data⟩
  | .none => ⟨[]⟩

/-! ## The per-image assembler (`build_firmware.py`) -/

/-- `_STRING_POOL` (28 NUL-terminated firmware strings). -/
def STRING_POOL : List (List Nat) :=
  [strBytes "Copyright (c) 2024 Firmware Corp. All rights reserved.\x00",
   strBytes "Build: release-v3.2.1-ga7f3c2d\x00",
   strBytes "ERROR: initialization failed\x00",
   strBytes "WARNING: low memory condition\x00",
   strBytes "firmware.bin\x00",
   strBytes "bootloader\x00",
   strBytes "kernel\x00",
   strBytes "rootfs\x00",
   strBytes "/dev/mtdblock0\x00",
   strBytes "/dev/ttyS0\x00",
   strBytes "eth0\x00",
   strBytes "wlan0\x00",
   strBytes "DHCP client started\x00",
   strBytes "Hardware revision: %d.%d\x00",
   strBytes "Serial: %08X%08X\x00",
   strBytes "Linux version 4.14.180\x00",
   strBytes "U-Boot 2019.07\x00",
   strBytes "Starting kernel ...\x00",
   strBytes "Booting from flash...\x00",
   strBytes "Image verified OK\x00",
   strBytes "CRC check passed\x00",
   strBytes "Decompressing...\x00",
   strBytes "Init complete.\x00",
   strBytes "GPIO initialized\x00",
   strBytes "SPI flash detected: W25Q128\x00",
   strBytes "DDR3 SDRAM: 128 MB\x00",
   strBytes "CPU: ARMv7 Processor rev 4 (v7l)\x00",
   strBytes "Machine: Generic DT based system\x00"]

/-- `_FS_MAGICS` (`.get` default `b"\x00" * 4` can never fire on
`FsType`). -/
def fsMagic : FsType → List Nat
  | .squashfs => strBytes "hsqs"
  | .jffs2 => [0x85, 0x19]
  | .cramfs => [0x45, 0x3D, 0xCD, 0x28]
  | .romfs => strBytes "-rom1fs-"

/-- The filesystem model of the objects tree: `lookup` is the exact path
`{objects_dir}/{family}/{triple}/{config}/{program}.bin` (`Option.some`
even for an empty file, matching `blob_path.exists()`), and `fallback` is
the first nonempty readable `.bin` that `rglob` yields under the family
directory, together with its `(triple, config, program)` path parts. -/
structure ObjectsDir where
  lookup : Fam → String → String → String → Option (List Nat)
  fallback : Fam → Option (String × String × String × List Nat)

/-- One entry of the sidecar's `sections` array (the `details` dicts are
omitted; `source_*` fields are only set on code entries). -/
structure SidecarSection where
  offset : Nat
  size : Nat
  stype : String
  isa_family : Option Fam := Option.none
  source_triple : String := ""
  source_program : String := ""
  source_config : String := ""
deriving Repr, DecidableEq

/-- The code-section tiling loop
(`while written < size: chunk = code_data[:size - written]; ...`),
fuel-structural.  Each pass writes at least one byte when `code_data` is
nonempty (the caller's `if code_data:` guard), so fuel `size + 1` runs it
to completion. -/
def tileCodeGo (code_data : List Nat) (offset : Nat) :
    Nat → List Nat → Nat → Nat → List Nat
  | 0, image, _, _ => image
  | fuel + 1, image, written, size =>
    if written < size ∧ code_data ≠ [] then
      let chunk := code_data.take (size - written)
      tileCodeGo code_data offset fuel
        (pySliceAssign image (offset + written) chunk)
        (written + chunk.length) size
    else image

/-- The string-table fill loop (`while len(buf) < size: buf.extend(
rng.choice(_STRING_POOL))`), fuel-structural (every pool string is
nonempty, so fuel `size + 1` runs it to completion; on the empty string
Python would not terminate). -/
def stringFillGo : Nat → Rng → List Nat → Nat → List Nat × Rng
  | 0, rng, buf, _ => (buf, rng)
  | fuel + 1, rng, buf, size =>
    if buf.length < size then
      let pick := Rng.chooseFrom STRING_POOL [] rng
      stringFillGo fuel pick.2 (buf ++ pick.1) size
    else (buf, rng)

/-- `val.to_bytes(4, "little")` repeated `k` times (rodata runs). -/
def rodataRun (val : Nat) : Nat → List Nat
  | 0 => []
  | k + 1 => u32le val ++ rodataRun val k

/-- The rodata fill loop: 50/50 pool strings and runs of 4-32 repeated
little-endian u32 values; fuel-structural for the same reason as
`stringFillGo`. -/
def rodataFillGo : Nat → Rng → List Nat → Nat → List Nat × Rng
  | 0, rng, buf, _ => (buf, rng)
  | fuel + 1, rng, buf, size =>
    if buf.length < size then
      let (q, rng1) := rng.randomQ
      if q.blt ⟨1, 2⟩ then
        let pick := Rng.chooseFrom STRING_POOL [] rng1
        rodataFillGo fuel pick.2 (buf ++ pick.1) size
      else
        let pickV := Rng.randintN 0 0xFFFFFFFF rng1
        let pickR := Rng.randintN 4 32 pickV.2
        rodataFillGo fuel pickR.2 (buf ++ rodataRun pickV.1 pickR.1) size
    else (buf, rng)

/-- Mutable state of the section loop of `generate_single_image`. -/
structure AsmState where
  image : List Nat
  rng : Rng
  sections : List SidecarSection
deriving Repr

/-- One iteration of the `for section in layout["sections"]` loop. -/
def processSection (objects : ObjectsDir) (header_type : HType)
    (endianness : Endian) (base_addr total_size now : Nat) (primary : Fam)
    (st : AsmState) (sec : SectionSpec) : AsmState :=
  match sec.section_type with
  | .header =>
    let result := (generateHeader header_type endianness st.rng
      total_size base_addr primary now).1
    let rng' := (generateHeader header_type endianness st.rng
      total_size base_addr primary now).2
    let actual_size := min result.data.length sec.size
    { image := pySliceAssign st.image sec.offset (result.data.take actual_size),
      rng := rng',
      sections := st.sections ++
        [{ offset := sec.offset, size := actual_size, stype := "header" }] }
  | .code =>
    let fam := sec.isa_family.getD primary
    let (blob_triple, blob_program, blob_config) :=
      match sec.fill_params with
      | .codeFill _ t p c => (t, p, c)
      | _ => ("", "", "")
    let (code_data, source_triple, source_program, source_config) :=
      match objects.lookup fam blob_triple blob_config blob_program with
      | Option.some data => (data, blob_triple, blob_program, blob_config)
      | Option.none =>
        match objects.fallback fam with
        | Option.some (t, c, p, data) => (data, t, p, c)
        | Option.none => ([], blob_triple, blob_program, blob_config)
    let image' :=
      if code_data ≠ [] then
        tileCodeGo code_data sec.offset (sec.size + 1) st.image 0 sec.size
      else st.image
    { image := image',
      rng := st.rng,
      sections := st.sections ++
        [{ offset := sec.offset, size := sec.size, stype := "code",
           isa_family := sec.isa_family,
           source_triple := source_triple,
           source_program := source_program,
           source_config := source_config }] }
  | .padding =>
    let fill_byte :=
      match sec.fill_params with
      | .paddingFill b => b
      | _ => 0xFF
    { image := pySliceAssign st.image sec.offset
        (List.replicate sec.size (fill_byte % 256)),
      rng := st.rng,
      sections := st.sections ++
        [{ offset := sec.offset, size := sec.size, stype := "padding" }] }
  | .string_table =>
    let fill := stringFillGo (sec.size + 1) st.rng [] sec.size
    { image := pySliceAssign st.image sec.offset (fill.1.take sec.size),
      rng := fill.2,
      sections := st.sections ++
        [{ offset := sec.offset, size := sec.size, stype := "string_table" }] }
  | .filesystem =>
    let fs := match sec.fill_params with
      | .fsFill t => t
      | _ => FsType.squashfs
    let magic := fsMagic fs
    let image1 := pySliceAssign st.image sec.offset magic
    let fill := Rng.randbytesN (sec.size - magic.length) st.rng
    { image := pySliceAssign image1 (sec.offset + magic.length) fill.1,
      rng := fill.2,
      sections := st.sections ++
        [{ offset := sec.offset, size := sec.size, stype := "filesystem" }] }
  | .random =>
    let fill := Rng.randbytesN sec.size st.rng
    { image := pySliceAssign st.image sec.offset fill.1,
      rng := fill.2,
      sections := st.sections ++
        [{ offset := sec.offset, size := sec.size, stype := "random" }] }
  | .rodata =>
    let fill := rodataFillGo (sec.size + 1) st.rng [] sec.size
    { image := pySliceAssign st.image sec.offset (fill.1.take sec.size),
      rng := fill.2,
      sections := st.sections ++
        [{ offset := sec.offset, size := sec.size, stype := "rodata" }] }
  | .trailer => st

/-- The sidecar JSON metadata (fields no claim inspects — the `details`
dicts, `code_fraction` rounding and the hex renderings of the digests —
are omitted or kept as raw bytes; `timestamp` models the
`time.strftime(..., time.gmtime())` wall-clock string by the epoch second
it renders). -/
structure Sidecar where
  image_id : String
  size_bytes : Nat
  sha256Digest : List Nat
  md5Digest : List Nat
  primary : Fam
  all : List Fam
  is_multi_isa : Bool
  header_type : HType
  trailer_type : TType
  num_sections : Nat
  num_code_sections : Nat
  code_bytes : Nat
  sections : List SidecarSection
  seed : Nat
  timestamp : Nat
deriving Repr, DecidableEq

/-- The worker's return dict (`duration_ms` omitted). -/
structure WorkerResult where
  image_id : String
  success : Bool
  size_bytes : Nat
  primary_isa : Fam
  isa_label : List Fam
  is_multi_isa : Bool
  num_sections : Nat
  code_bytes : Nat
deriving Repr, DecidableEq

/-- Everything `generate_single_image` produces: the `.bin` bytes, the
`.json` sidecar, and the result dict. -/
structure AssembledOutput where
  image : List Nat
  sidecar : Sidecar
  result : WorkerResult
deriving Repr, DecidableEq

/-- `generate_single_image`: assemble one firmware image from its layout.
`rngStream` is the draw stream of `Random(layout.seed)`; `now` is the wall
clock (`time.time()`, also the sidecar timestamp). -/
def generateSingleImage (objects : ObjectsDir) (layout : ImageLayout)
    (rngStream : List Nat) (now : Nat) : AssembledOutput :=
  let total_size := layout.total_size
  let primary := layout.primary_isa
  let family_info := ISA_FAMILIES primary
  let st0 : AsmState := ⟨List.replicate total_size 0xFF, ⟨rngStream⟩, []⟩
  let st := layout.sections.foldl
    (processSection objects layout.header_type family_info.endianness
      family_info.typical_base_addr total_size now primary) st0
  let trailer_offset := total_size - trailerSize layout.trailer_type
  let tr := generateTrailer layout.trailer_type (st.image.take trailer_offset)
  let imageT :=
    if layout.trailer_type ≠ TType.none then
      pySliceAssign st.image trailer_offset tr.data
    else st.image
  let sectionsT :=
    if layout.trailer_type ≠ TType.none then
      st.sections ++
        [{ offset := trailer_offset, size := tr.data.length,
           stype := "trailer" }]
    else st.sections
  let code_sections := sectionsT.filter (fun s => s.stype = "code")
  let code_bytes := (code_sections.map SidecarSection.size).sum
  { image := imageT,
    sidecar :=
      { image_id := layout.image_id,
        size_bytes := total_size,
        sha256Digest := sha256 imageT,
        md5Digest := md5 imageT,
        primary := primary,
        all := layout.all_isa_families,
        is_multi_isa := layout.all_isa_families.length > 1,
        header_type := layout.header_type,
        trailer_type := layout.trailer_type,
        num_sections := sectionsT.length,
        num_code_sections := code_sections.length,
        code_bytes := code_bytes,
        sections := sectionsT,
        seed := layout.seed,
        timestamp := now },
    result :=
      { image_id := layout.image_id,
        success := true,
        size_bytes := total_size,
        primary_isa := primary,
        isa_label := layout.isaLabel,
        is_multi_isa := layout.all_isa_families.length > 1,
        num_sections := sectionsT.length,
        code_bytes := code_bytes } }

/-- The assembled buffer before the trailer is placed: the section fold
of `generate_single_image` (definitionally the `st.image` it computes). -/
def asmBuffer (objects : ObjectsDir) (layout : ImageLayout)
    (rngStream : List Nat) (now : Nat) : List Nat :=
  (layout.sections.foldl
    (processSection objects layout.header_type
      (ISA_FAMILIES layout.primary_isa).endianness
      (ISA_FAMILIES layout.primary_isa).typical_base_addr
      layout.total_size now layout.primary_isa)
    ⟨List.replicate layout.total_size 0xFF, ⟨rngStream⟩, []⟩).image

/-! ## Concrete fixtures

Small blob indexes, configurations, draw streams and object stores used to
instantiate the theorems below at concrete inputs.  The draw streams are
in-range encodings of real generator states: each entry is consumed by one
`random.Random` primitive of the corresponding run. -/

/-- Two Thumb blobs of 62 and 64 bytes. -/
def idxC2 : BlobIndex := ⟨fun f => match f with
  | .thumb => [⟨.thumb, "thumbv7m-none-eabi", "O2", "p62", 62⟩,
               ⟨.thumb, "thumbv7m-none-eabi", "O2", "p64", 64⟩]
  | _ => []⟩

/-- A fixed-size 512-byte configuration. -/
def cfgC2 : FirmwareGenConfig :=
  { seed := 0, num_images := 10, min_size := 512, max_size := 512 }

/-- Draw stream: single-ISA Thumb, bare header, crc32 trailer, and code
picks that force an alignment-padding byte inside the code loop. -/
def strC2 : List Nat :=
  [2 ^ 52, 1, 0, 0, 2 ^ 52, 0, 0, 0, 3 * 2 ^ 51, 33, 1, 0, 0, 3 * 2 ^ 51,
   157, 1, 3, 2 ^ 52]

/-- The layout those draws produce. -/
def layC2 : ImageLayout :=
  generateLayout idxC2 cfgC2 ⟨strC2⟩ 0 (Option.some .thumb) Option.none

/-- `tilesFrom cursor total secs`: the sections, in list order, tile
`[cursor, total)` exactly — each starts where the previous one ended and
the last ends at `total`. -/
def tilesFrom (cursor total : Nat) : List SectionSpec → Bool
  | [] => cursor = total
  | s :: rest => s.offset = cursor && tilesFrom (cursor + s.size) total rest

/-- The first section of `layC2` (a Thumb code section at offset 0). -/
def secC2head : SectionSpec :=
  layC2.sections.getD 0 ⟨0, 0, SType.padding, 1, Option.none, .emptyFill⟩

/-- Two arm32 blobs of 60 and 37 bytes. -/
def idxC3 : BlobIndex := ⟨fun f => match f with
  | .arm32 => [⟨.arm32, "arm-unknown-linux-gnueabi", "O2", "p60", 60⟩,
               ⟨.arm32, "arm-unknown-linux-gnueabi", "O2", "p37", 37⟩]
  | _ => []⟩

/-- Draw stream: single-ISA arm32, bare header, crc32 trailer, and code
picks whose final section crosses `total_size`. -/
def strC3 : List Nat :=
  [2 ^ 52, 3, 0, 0, 2 ^ 52, 0, 0, 0, 3 * 2 ^ 51, 33, 0, 0, 0, 3 * 2 ^ 51,
   33, 0, 0, 0, 3 * 2 ^ 51, 92, 1, 3, 2 ^ 52]

/-- The layout those draws produce (its last code section ends past
`total_size`, so the assembled buffer grows past it too). -/
def layC3 : ImageLayout :=
  generateLayout idxC3 cfgC2 ⟨strC3⟩ 0 (Option.some .arm32) Option.none

/-- An object store holding exactly the two arm32 blobs of `idxC3`. -/
def objC3 : ObjectsDir := ⟨fun f t c p =>
    if f = Fam.arm32 ∧ t = "arm-unknown-linux-gnueabi" ∧ c = "O2" ∧ p = "p60"
    then Option.some (List.replicate 60 0xAB)
    else if f = Fam.arm32 ∧ t = "arm-unknown-linux-gnueabi" ∧ c = "O2" ∧
      p = "p37"
    then Option.some (List.replicate 37 0xCD)
    else Option.none,
  fun _ => Option.none⟩

/-- The image assembled from `layC3`. -/
def outC3 : AssembledOutput := generateSingleImage objC3 layC3 [] 0

/-- One arm32 blob of 60 bytes. -/
def idxC4 : BlobIndex := ⟨fun f => match f with
  | .arm32 => [⟨.arm32, "arm-unknown-linux-gnueabi", "O2", "p60", 60⟩]
  | _ => []⟩

/-- Draw stream: single-ISA arm32, a U-Boot header, no trailer, and code
picks that fill the 512-byte image exactly. -/
def strC4 : List Nat :=
  [2 ^ 52, 1, 3 * 2 ^ 51, 0, 2 ^ 52, 0, 0, 2 ^ 52, 0, 0, 2 ^ 52, 0, 0,
   2 ^ 52, 0, 48, 0, 0, 48, 0, 0, 48, 0, 0, 16, 0]

/-- The layout those draws produce. -/
def layC4 : ImageLayout :=
  generateLayout idxC4 cfgC2 ⟨strC4⟩ 0 (Option.some .arm32) Option.none

/-- An object store holding exactly the arm32 blob of `idxC4`. -/
def objC4 : ObjectsDir := ⟨fun f t c p =>
    if f = Fam.arm32 ∧ t = "arm-unknown-linux-gnueabi" ∧ c = "O2" ∧ p = "p60"
    then Option.some (List.replicate 60 0xAB)
    else Option.none,
  fun _ => Option.none⟩

/-- The image assembled from `layC4` at wall-clock second 1000. -/
def outC4a : AssembledOutput := generateSingleImage objC4 layC4 [] 1000

/-- The image assembled from `layC4` at wall-clock second 1001: every
other input is identical. -/
def outC4b : AssembledOutput := generateSingleImage objC4 layC4 [] 1001

/-- A minimal hand-written layout: no sections, a crc32 trailer, 64
bytes.  Its assembled buffer is exactly the 0xFF pre-fill. -/
def layW : ImageLayout :=
  { image_id := "fw_0_000000", total_size := 64, primary_isa := .arm32,
    header_type := .bare, trailer_type := .crc32, sections := [],
    all_isa_families := [.arm32], seed := 0 }

/-- An empty object store. -/
def objW : ObjectsDir := ⟨fun _ _ _ _ => Option.none, fun _ => Option.none⟩

/-- A code section whose blob names no stored object. -/
def secC9 : SectionSpec :=
  { offset := 8, size := 32, section_type := SType.code, alignment := 4,
    isa_family := Option.some Fam.arm32,
    fill_params := .codeFill Fam.arm32 "t" "p" "c" }

/-- An assembler state mid-run: a 64-byte 0xFF buffer. -/
def stC9 : AsmState := ⟨List.replicate 64 0xFF, ⟨[]⟩, []⟩

/-! ## General lemmas about the random primitives and the pickers -/

/-- `rng.choice(xs)` returns an element of a nonempty `xs`. -/
theorem chooseFrom_fst_mem {α : Type} (xs : List α) (d : α) (r : Rng)
    (h : xs ≠ []) : (Rng.chooseFrom xs d r).1 ∈ xs := by
  have hlen : 0 < xs.length := List.length_pos.mpr h
  have hlt : r.next.1 % xs.length < xs.length := Nat.mod_lt _ hlen
  simp only [Rng.chooseFrom]
  rw [List.getD_eq_getElem xs d hlt]
  exact List.getElem_mem hlt

/-- The cumulative-weight scan returns a listed item or the fallback. -/
theorem weightedGo_mem {α : Type} (fb : α) (r : Q) (l : List (α × Q))
    (c : Q) :
    weightedGo fb r l c ∈ l.map Prod.fst ∨ weightedGo fb r l c = fb := by
  induction l generalizing c with
  | nil => exact Or.inr rfl
  | cons hd tl ih =>
    obtain ⟨item, weight⟩ := hd
    simp only [weightedGo]
    split
    · left
      simp
    · rcases ih (c.add weight) with h | h
      · left
        simp only [List.map_cons, List.mem_cons]
        exact Or.inr h
      · exact Or.inr h

/-- `_weighted_choice` returns a listed item or the default. -/
theorem weightedChoice_fst_mem {α : Type} (rng : Rng)
    (options : List (α × Q)) (d : α) :
    (weightedChoice rng options d).1 ∈ options.map Prod.fst ∨
      (weightedChoice rng options d).1 = d := by
  simp only [weightedChoice]
  rcases weightedGo_mem (((options.getLast? ).map Prod.fst).getD d)
    ((rng.randomQ.1).mul (Q.sumList (options.map Prod.snd))) options ⟨0, 1⟩
    with h | h
  · exact Or.inl h
  · rw [h]
    cases hl : options.getLast? with
    | none =>
      right
      simp [hl]
    | some x =>
      left
      obtain ⟨hne, hx⟩ := List.mem_getLast?_eq_getLast (l := options) hl
      simpa [hx] using List.mem_map_of_mem Prod.fst (List.getLast_mem hne)

/-- The section kind drawn by `_pick_non_code_section` is one of the five
non-code kinds. -/
theorem pickNonCodeSection_kind (rng : Rng) (m : Nat) :
    (pickNonCodeSection rng m).1.1 ≠ SType.code ∧
    (pickNonCodeSection rng m).1.1 ≠ SType.header ∧
    (pickNonCodeSection rng m).1.1 ≠ SType.trailer := by
  have hmem := weightedChoice_fst_mem rng NON_CODE_WEIGHTS SType.padding
  rcases hk : (weightedChoice rng NON_CODE_WEIGHTS SType.padding).1 with
    _ | _ | _ | _ | _ | _ | _ | _ <;>
    simp only [pickNonCodeSection, hk] <;>
    simp_all [NON_CODE_WEIGHTS]

/-- `_align_up` never decreases its input. -/
theorem alignUp_ge (v a : Nat) : v ≤ alignUp v a := by
  unfold alignUp
  split
  · exact Nat.le_refl v
  · rename_i h
    have ha : 2 ≤ a := by omega
    have h1 := Nat.div_add_mod (v + a - 1) a
    have h2 : (v + a - 1) % a < a := Nat.mod_lt _ (by omega)
    have h3 : a * ((v + a - 1) / a) = (v + a - 1) / a * a := Nat.mul_comm _ _
    omega

/-- `_align_up` lands on a multiple of the alignment. -/
theorem alignUp_mod (v a : Nat) (ha : 1 ≤ a) : alignUp v a % a = 0 := by
  unfold alignUp
  split
  · rename_i h
    have : a = 1 := by omega
    simp [this, Nat.mod_one]
  · exact Nat.mul_mod_left _ _

/-- Every family's declared alignment is positive (by inspection of the
database). -/
theorem famAlignment_pos : ∀ f : Fam, 1 ≤ (ISA_FAMILIES f).alignment := by
  intro f
  cases f <;> decide

/-- A drawn blob certifies that the family's blob list is nonempty. -/
theorem get_random_blob_some (idx : BlobIndex) (f : Fam) (r : Rng)
    (b : BlobInfo) (h : (idx.get_random_blob f r).1 = Option.some b) :
    idx.blobs f ≠ [] := by
  intro hnil
  rw [BlobIndex.get_random_blob] at h
  rw [hnil] at h
  exact Option.noConfusion h

/-- An empty family always yields `None` from `get_random_blob`. -/
theorem get_random_blob_none (idx : BlobIndex) (f : Fam) (r : Rng)
    (h : idx.blobs f = []) : (idx.get_random_blob f r).1 = Option.none := by
  rw [BlobIndex.get_random_blob]
  rw [h]

/-! ## C5: the Cortex-M vector table -/

/-- The handler loop emits exactly `k` vectors. -/
theorem cortexmHandlers_length (b nv k : Nat) (r : Rng) :
    (cortexmHandlers b nv k r).1.length = k := by
  induction k generalizing r with
  | zero => rfl
  | succ n ih => simp [cortexmHandlers, ih]

/-- `flatMap u32le` yields four bytes per word. -/
theorem flatMap_u32le_length (l : List Nat) :
    (l.flatMap u32le).length = 4 * l.length := by
  induction l with
  | nil => rfl
  | cons x xs ih =>
    simp only [List.flatMap_cons, List.length_append, ih, u32le,
      List.length_cons, List.length_nil]
    omega

/-- Little-endian read of a packed u32 at the head. -/
theorem readHeadLE_u32le (x : Nat) (rest : List Nat) (hx : x < 2 ^ 32) :
    readHeadLE (u32le x ++ rest) = x := by
  simp only [u32le, List.cons_append, List.nil_append, readHeadLE]
  omega

/-- The word structure of a generated Cortex-M vector table, for arbitrary
in-range draws. -/
theorem cortexmTableStructure (N sp base_addr : Nat) (rng2 : Rng)
    (hN : N ∈ [16, 32, 48, 64])
    (hsp : sp ∈ [0x20005000, 0x20010000, 0x20020000, 0x20040000])
    (hb : base_addr + 256 < 2 ^ 32) :
    ((sp :: ((base_addr + N * 4) ||| 1) ::
        (cortexmHandlers base_addr N (N - 2) rng2).1).flatMap u32le).length
      = 4 * N ∧
    readLE32 ((sp :: ((base_addr + N * 4) ||| 1) ::
        (cortexmHandlers base_addr N (N - 2) rng2).1).flatMap u32le) 0 ∈
      [0x20005000, 0x20010000, 0x20020000, 0x20040000] ∧
    readLE32 ((sp :: ((base_addr + N * 4) ||| 1) ::
        (cortexmHandlers base_addr N (N - 2) rng2).1).flatMap u32le) 4 =
      ((base_addr + N * 4) ||| 1) ∧
    ((sp :: ((base_addr + N * 4) ||| 1) ::
        (cortexmHandlers base_addr N (N - 2) rng2).1).flatMap u32le).getD 4 0
      % 2 = 1 := by
  have hN' : N = 16 ∨ N = 32 ∨ N = 48 ∨ N = 64 := by simpa using hN
  have hsp' : sp = 0x20005000 ∨ sp = 0x20010000 ∨ sp = 0x20020000 ∨
      sp = 0x20040000 := by simpa using hsp
  have hN2 : 2 ≤ N := by omega
  have hNle : N ≤ 64 := by omega
  have hsp32 : sp < 2 ^ 32 := by omega
  have hreset32 : (base_addr + N * 4) ||| 1 < 2 ^ 32 := by
    have h1 : base_addr + N * 4 < 2 ^ 32 := by omega
    exact Nat.or_lt_two_pow h1 (by omega)
  refine ⟨?len, ?sp, ?reset, ?lsb⟩
  case len =>
    rw [flatMap_u32le_length]
    simp only [List.length_cons, cortexmHandlers_length]
    omega
  case sp =>
    simp only [List.flatMap_cons, readLE32, List.drop_zero]
    rw [readHeadLE_u32le sp _ hsp32]
    exact hsp
  case reset =>
    simp only [List.flatMap_cons, readLE32, u32le, List.cons_append,
      List.nil_append, List.drop_succ_cons, List.drop_zero]
    show readHeadLE (u32le ((base_addr + N * 4) ||| 1) ++ _) = _
    exact readHeadLE_u32le _ _ hreset32
  case lsb =>
    have hodd : ((base_addr + N * 4) ||| 1) % 2 = 1 := by
      have ht : ((base_addr + N * 4) ||| 1).testBit 0 = true := by
        simp [Nat.testBit_or]
      simp only [Nat.testBit_zero, decide_eq_true_eq] at ht
      exact ht
    simp only [List.flatMap_cons, u32le, List.cons_append, List.nil_append,
      List.getD_cons_succ, List.getD_cons_zero]
    omega

/-- C5: every header produced by the `vector_table_cortexm` generator
consists of `N ∈ {16, 32, 48, 64}` little-endian u32 words; the word at
offset 0 (the initial SP) is one of
`{0x20005000, 0x20010000, 0x20020000, 0x20040000}`; the word at offset 4
(the reset vector) equals `(base_addr + N*4) ||| 1`; and the byte at
offset 4 is odd (the Thumb bit).  The bound on `base_addr` keeps every
packed word below `2^32` (Python's `struct.pack` would raise
otherwise). -/
theorem c5_cortexm_vector_table (rng : Rng) (base_addr : Nat)
    (hb : base_addr + 256 < 2 ^ 32) :
    ∃ N ∈ [16, 32, 48, 64],
      ((vector_table_cortexm rng base_addr).1).data.length = 4 * N ∧
      readLE32 ((vector_table_cortexm rng base_addr).1).data 0 ∈
        [0x20005000, 0x20010000, 0x20020000, 0x20040000] ∧
      readLE32 ((vector_table_cortexm rng base_addr).1).data 4 =
        ((base_addr + N * 4) ||| 1) ∧
      ((vector_table_cortexm rng base_addr).1).data.getD 4 0 % 2 = 1 := by
  have hN := chooseFrom_fst_mem [16, 32, 48, 64] 16 rng (by simp)
  have hsp := chooseFrom_fst_mem [0x20005000, 0x20010000, 0x20020000,
    0x20040000] 0x20005000 (Rng.chooseFrom [16, 32, 48, 64] 16 rng).2
    (by simp)
  exact ⟨(Rng.chooseFrom [16, 32, 48, 64] 16 rng).1, hN,
    cortexmTableStructure _ _ base_addr _ hN hsp hb⟩

/-- Witness for C5 at a concrete draw stream and the Thumb base address. -/
theorem c5_witness :
    (0x08000000 + 256 < 2 ^ 32) ∧
    (∃ N ∈ [16, 32, 48, 64],
      ((vector_table_cortexm ⟨[1, 2]⟩ 0x08000000).1).data.length = 4 * N ∧
      readLE32 ((vector_table_cortexm ⟨[1, 2]⟩ 0x08000000).1).data 0 ∈
        [0x20005000, 0x20010000, 0x20020000, 0x20040000] ∧
      readLE32 ((vector_table_cortexm ⟨[1, 2]⟩ 0x08000000).1).data 4 =
        ((0x08000000 + N * 4) ||| 1) ∧
      ((vector_table_cortexm ⟨[1, 2]⟩ 0x08000000).1).data.getD 4 0 % 2 = 1) :=
  ⟨by decide, c5_cortexm_vector_table ⟨[1, 2]⟩ 0x08000000 (by decide)⟩

/-! ## C6: code sections carry their family and its alignment -/

/-- Well-formedness of one section relative to a blob index `idx` and a
family list `F`: a code section names a family of `F` whose blob list in
`idx` is nonempty, carries that family's declared alignment, and sits at
a multiple of it. -/
def codeSecOK (idx : BlobIndex) (F : List Fam) (sec : SectionSpec) : Prop :=
  sec.section_type = SType.code →
    ∃ fam, sec.isa_family = Option.some fam ∧ fam ∈ F ∧
      idx.blobs fam ≠ [] ∧
      sec.alignment = (ISA_FAMILIES fam).alignment ∧
      sec.offset % sec.alignment = 0

/-- A section that is not a code section is trivially well formed. -/
theorem codeSecOK_of_ne (idx : BlobIndex) (F : List Fam) (sec : SectionSpec)
    (h : sec.section_type ≠ SType.code) : codeSecOK idx F sec :=
  fun hc => absurd hc h

/-- Well-formedness distributes over list append. -/
theorem codeSecOK_append (idx : BlobIndex) (F : List Fam)
    (l1 l2 : List SectionSpec)
    (h1 : ∀ s ∈ l1, codeSecOK idx F s) (h2 : ∀ s ∈ l2, codeSecOK idx F s) :
    ∀ s ∈ l1 ++ l2, codeSecOK idx F s := by
  intro s hs
  rcases List.mem_append.mp hs with h | h
  · exact h1 s h
  · exact h2 s h

/-- The cursor after alignment is a multiple of the alignment. -/
theorem maxAlignUp_mod (c a : Nat) (ha : 1 ≤ a) :
    max c (alignUp c a) % a = 0 := by
  rw [Nat.max_eq_right (alignUp_ge c a)]
  exact alignUp_mod c a ha

/-- The code loop preserves section well-formedness: every section it
appends is either a code section for a family still in the queue (placed
at an aligned cursor) or a non-code section. -/
theorem codeLoop_codeOK (idx : BlobIndex) (F : List Fam) :
    ∀ (fuel : Nat) (st : CodeState),
    (∀ f ∈ st.family_queue, f ∈ F) →
    (∀ sec ∈ st.sections, codeSecOK idx F sec) →
    ∀ sec ∈ (codeLoop idx fuel st).sections, codeSecOK idx F sec := by
  intro fuel
  induction fuel with
  | zero => intro st _ hs; exact hs
  | succ n ih =>
    intro st hq hs
    rw [codeLoop]
    split
    · exact hs
    · split
      · exact hs
      · rename_i hlt fam tail hqeq
        dsimp only
        have hfamF : fam ∈ F := hq fam (by rw [hqeq]; exact List.mem_cons_self _ _)
        have htailF : ∀ f ∈ tail ++ [fam], f ∈ F := by
          intro f hf
          rcases List.mem_append.mp hf with h | h
          · exact hq f (by rw [hqeq]; exact List.mem_cons_of_mem _ h)
          · rw [List.mem_singleton.mp h]; exact hfamF
        split
        · rename_i hnone
          split
          · exact hs
          · exact ih _ (fun f hf => htailF f (List.mem_of_mem_filter hf)) hs
        · rename_i blob hsome
          split
          · -- the clamp chose `code_remaining` as the section size
            split
            · exact hs
            · split
              · refine ih _ htailF
                  (codeSecOK_append idx F _ _ (codeSecOK_append idx F _ _ ?_ ?_) ?_)
                · split
                  · refine codeSecOK_append idx F _ _ hs ?_
                    intro s hs1
                    rw [List.mem_singleton.mp hs1]
                    exact codeSecOK_of_ne idx F _ (by intro h; exact SType.noConfusion h)
                  · exact hs
                · intro s hs1
                  rw [List.mem_singleton.mp hs1]
                  intro _
                  exact ⟨fam, rfl, hfamF,
                    get_random_blob_some idx fam st.rng blob hsome, rfl,
                    maxAlignUp_mod st.cursor (ISA_FAMILIES fam).alignment
                      (famAlignment_pos fam)⟩
                · intro s hs1
                  rw [List.mem_singleton.mp hs1]
                  exact codeSecOK_of_ne idx F _ (pickNonCodeSection_kind _ _).1
              · refine ih _ htailF (codeSecOK_append idx F _ _ ?_ ?_)
                · split
                  · refine codeSecOK_append idx F _ _ hs ?_
                    intro s hs1
                    rw [List.mem_singleton.mp hs1]
                    exact codeSecOK_of_ne idx F _ (by intro h; exact SType.noConfusion h)
                  · exact hs
                · intro s hs1
                  rw [List.mem_singleton.mp hs1]
                  intro _
                  exact ⟨fam, rfl, hfamF,
                    get_random_blob_some idx fam st.rng blob hsome, rfl,
                    maxAlignUp_mod st.cursor (ISA_FAMILIES fam).alignment
                      (famAlignment_pos fam)⟩
          · -- the clamp kept the aligned size
            split
            · exact hs
            · split
              · refine ih _ htailF
                  (codeSecOK_append idx F _ _ (codeSecOK_append idx F _ _ ?_ ?_) ?_)
                · split
                  · refine codeSecOK_append idx F _ _ hs ?_
                    intro s hs1
                    rw [List.mem_singleton.mp hs1]
                    exact codeSecOK_of_ne idx F _ (by intro h; exact SType.noConfusion h)
                  · exact hs
                · intro s hs1
                  rw [List.mem_singleton.mp hs1]
                  intro _
                  exact ⟨fam, rfl, hfamF,
                    get_random_blob_some idx fam st.rng blob hsome, rfl,
                    maxAlignUp_mod st.cursor (ISA_FAMILIES fam).alignment
                      (famAlignment_pos fam)⟩
                · intro s hs1
                  rw [List.mem_singleton.mp hs1]
                  exact codeSecOK_of_ne idx F _ (pickNonCodeSection_kind _ _).1
              · refine ih _ htailF (codeSecOK_append idx F _ _ ?_ ?_)
                · split
                  · refine codeSecOK_append idx F _ _ hs ?_
                    intro s hs1
                    rw [List.mem_singleton.mp hs1]
                    exact codeSecOK_of_ne idx F _ (by intro h; exact SType.noConfusion h)
                  · exact hs
                · intro s hs1
                  rw [List.mem_singleton.mp hs1]
                  intro _
                  exact ⟨fam, rfl, hfamF,
                    get_random_blob_some idx fam st.rng blob hsome, rfl,
                    maxAlignUp_mod st.cursor (ISA_FAMILIES fam).alignment
                      (famAlignment_pos fam)⟩

/-- The non-code fill loop appends only non-code sections, so it preserves
well-formedness. -/
theorem fillLoop_codeOK (idx : BlobIndex) (ts tr : Nat) (F : List Fam) :
    ∀ (fuel : Nat) (st : FillState),
    (∀ sec ∈ st.sections, codeSecOK idx F sec) →
    ∀ sec ∈ (fillLoop ts tr fuel st).sections, codeSecOK idx F sec := by
  intro fuel
  induction fuel with
  | zero => intro st hs; exact hs
  | succ n ih =>
    intro st hs
    rw [fillLoop]
    split
    · dsimp only
      split
      · exact hs
      · refine ih _ ?_
        refine codeSecOK_append idx F _ _ hs ?_
        intro s hs1
        rw [List.mem_singleton.mp hs1]
        refine codeSecOK_of_ne idx F _ ?_
        exact (pickNonCodeSection_kind _ _).1
    · exact hs

set_option maxHeartbeats 2000000 in
/-- All sections of a laid-out image are well formed with respect to the
image's family list. -/
theorem layoutFromPicks_codeOK (idx : BlobIndex) (cfg : FirmwareGenConfig)
    (seq : Nat) (primary : Fam) (all_families : List Fam)
    (header_type : HType) (trailer_type : TType) (total_size0 : Nat)
    (rngE : Rng) :
    ∀ sec ∈ (layoutFromPicks idx cfg seq primary all_families header_type
      trailer_type total_size0 rngE).sections,
      codeSecOK idx all_families sec := by
  rw [layoutFromPicks]
  dsimp only
  split_ifs
  all_goals repeat'
    first
      | refine codeSecOK_append _ _ _ _ ?_ ?_
      | refine fillLoop_codeOK _ _ _ _ _ _ ?_
      | refine codeLoop_codeOK idx _ _ _ (fun f hf => hf) ?_
      | (intro s hs1;
         rw [List.mem_singleton.mp hs1];
         exact codeSecOK_of_ne _ _ _ (by intro h; exact SType.noConfusion h))
      | (intro s hs1;
         exact absurd hs1 (List.not_mem_nil s))

/-- C6: every Code section of every layout emitted by
`LayoutEngine.generate_layout` carries a (non-empty) `isa_family` that
belongs to the layout's `all_isa_families`, its `alignment` field equals
that family's declared alignment in the ISA-family database, and its
offset is a multiple of that alignment. -/
theorem c6_code_section_alignment (idx : BlobIndex) (cfg : FirmwareGenConfig)
    (rng : Rng) (seq : Nat) (primary_isa : Option Fam)
    (forced_secondaries : Option (List Fam)) :
    ∀ sec ∈ (generateLayout idx cfg rng seq primary_isa
        forced_secondaries).sections,
      sec.section_type = SType.code →
      ∃ fam, sec.isa_family = Option.some fam ∧
        fam ∈ (generateLayout idx cfg rng seq primary_isa
          forced_secondaries).all_isa_families ∧
        sec.alignment = (ISA_FAMILIES fam).alignment ∧
        sec.offset % sec.alignment = 0 := by
  intro sec hsec hcode
  obtain ⟨fam, h1, h2, _, h4, h5⟩ :=
    layoutFromPicks_codeOK idx cfg seq _ _ _ _ _ _ sec hsec hcode
  exact ⟨fam, h1, h2, h4, h5⟩

/-- Witness for C6 at the first section of the concrete layout `layC2`
(a Thumb code section at offset 0). -/
theorem c6_witness :
    ∃ fam, secC2head.isa_family = Option.some fam ∧
      fam ∈ (generateLayout idxC2 cfgC2 ⟨strC2⟩ 0 (Option.some .thumb)
        Option.none).all_isa_families ∧
      secC2head.alignment = (ISA_FAMILIES fam).alignment ∧
      secC2head.offset % secC2head.alignment = 0 :=
  c6_code_section_alignment idxC2 cfgC2 ⟨strC2⟩ 0 (Option.some .thumb)
    Option.none secC2head (by decide) (by decide)

/-! ## C8: forced combinations naming blob-less families -/

/-- Counterexample to C8: forcing the secondary list `[avr]` against an
index whose `avr` family is empty still emits a layout, and the emitted
layout still lists `avr` in `all_isa_families` — the image is not
skipped. -/
theorem c8_counterexample :
    idxC2.blobs Fam.avr = [] ∧
    (generateLayout idxC2 cfgC2 ⟨strC2⟩ 0 (Option.some .thumb)
      (Option.some [Fam.avr])).all_isa_families = [Fam.thumb, Fam.avr] :=
  ⟨rfl, rfl⟩

/-- C8 (amended): when a forced ISA combination names a family for which
the blob index is empty, no image is skipped — `generate_layout` always
emits a layout listing the entire forced combination in
`all_isa_families`.  What is skipped is the family inside the code loop:
it is dropped from the rotation queue, so every Code section of the
emitted layout names a family whose blob list is nonempty. -/
theorem c8_forced_family_skip (idx : BlobIndex) (cfg : FirmwareGenConfig)
    (rng : Rng) (seq : Nat) (p : Fam) (fs : List Fam) :
    (generateLayout idx cfg rng seq (Option.some p)
      (Option.some fs)).all_isa_families = p :: fs ∧
    ∀ sec ∈ (generateLayout idx cfg rng seq (Option.some p)
        (Option.some fs)).sections,
      sec.section_type = SType.code →
      ∃ fam, sec.isa_family = Option.some fam ∧ idx.blobs fam ≠ [] := by
  refine ⟨rfl, ?_⟩
  intro sec hsec hcode
  obtain ⟨fam, h1, _, h3, _, _⟩ :=
    layoutFromPicks_codeOK idx cfg seq _ _ _ _ _ _ sec hsec hcode
  exact ⟨fam, h1, h3⟩

/-- Witness for C8 at the concrete forced combination `[thumb, avr]`. -/
theorem c8_witness :
    (generateLayout idxC2 cfgC2 ⟨strC2⟩ 0 (Option.some .thumb)
      (Option.some [Fam.avr])).all_isa_families = Fam.thumb :: [Fam.avr] :=
  (c8_forced_family_skip idxC2 cfgC2 ⟨strC2⟩ 0 .thumb [Fam.avr]).1

/-! ## C3: the trailer round trip -/

/-- `u32le` always packs four bytes. -/
theorem u32le_length (x : Nat) : (u32le x).length = 4 := rfl

/-- `u32be` always packs four bytes. -/
theorem u32be_length (x : Nat) : (u32be x).length = 4 := rfl

/-- An MD5 digest is 16 bytes. -/
theorem md5_length (data : List Nat) : (md5 data).length = 16 := by
  simp [md5, u32le]

/-- A SHA-256 digest is 32 bytes. -/
theorem sha256_length (data : List Nat) : (sha256 data).length = 32 := by
  simp [sha256, u32be]

/-- The trailer generator emits exactly the declared trailer size. -/
theorem generateTrailer_length (tt : TType) (img : List Nat) :
    (generateTrailer tt img).data.length = trailerSize tt := by
  cases tt with
  | crc32 => exact u32le_length _
  | md5 => exact md5_length img
  | sha256 => exact sha256_length img
  | none => rfl

/-- Slice assignment past position `a` leaves the prefix intact. -/
theorem pySliceAssign_take {α : Type} (buf data : List α) (a : Nat)
    (ha : a ≤ buf.length) :
    (pySliceAssign buf a data).take a = buf.take a := by
  have hlen : (buf.take a).length = a := by
    rw [List.length_take]
    omega
  rw [pySliceAssign, List.append_assoc,
    List.take_append_of_le_length (by omega), List.take_take,
    Nat.min_self]

/-- Slice assignment that ends exactly at the buffer's end replaces the
suffix with the data. -/
theorem pySliceAssign_drop {α : Type} (buf data : List α) (a : Nat)
    (ha : a + data.length = buf.length) :
    (pySliceAssign buf a data).drop a = data := by
  have hlen : (buf.take a).length = a := by
    rw [List.length_take]
    omega
  have hnil : buf.drop (a + data.length) = [] :=
    List.drop_eq_nil_of_le (by omega)
  rw [pySliceAssign, List.append_assoc, hnil, List.append_nil]
  exact List.drop_left' hlen

set_option maxRecDepth 1000000 in
/-- Counterexample to C3: for the concrete image `outC3` (whose layout
runs past `total_size`, so the assembled buffer is 514 bytes long while
`total_size` is 512), recomputing the declared crc32 checksum over
`image[: total_size - trailer_size]` does not reproduce
`image[total_size - trailer_size :]` — the slice holds six bytes, two of
which are overflow from the last code section. -/
theorem c3_counterexample :
    outC3.image.drop (layC3.total_size - trailerSize layC3.trailer_type) ≠
      (generateTrailer layC3.trailer_type
        (outC3.image.take
          (layC3.total_size - trailerSize layC3.trailer_type))).data := by
  have h1 : outC3.image.length = 514 := by decide
  have h2 : layC3.total_size = 512 := by decide
  have h3 : layC3.trailer_type = TType.crc32 := by decide
  intro h
  have hl := congrArg List.length h
  rw [List.length_drop, h1, h2, h3, generateTrailer_length] at hl
  exact absurd hl (by decide)

set_option maxRecDepth 8000 in
/-- C3 (amended): the trailer round trip holds for every assembled image
whose pre-trailer buffer is exactly `total_size` bytes long (that is,
whenever no section write ran past `total_size`): with a non-`none`
trailer, recomputing the declared checksum over
`image[: total_size - trailer_size]` reproduces exactly
`image[total_size - trailer_size :]`. -/
theorem c3_trailer_roundtrip (objects : ObjectsDir) (layout : ImageLayout)
    (rngStream : List Nat) (now : Nat)
    (hlen : (asmBuffer objects layout rngStream now).length =
      layout.total_size)
    (ht : 0 < trailerSize layout.trailer_type)
    (htt : trailerSize layout.trailer_type ≤ layout.total_size) :
    (generateSingleImage objects layout rngStream now).image.drop
        (layout.total_size - trailerSize layout.trailer_type) =
      (generateTrailer layout.trailer_type
        ((generateSingleImage objects layout rngStream now).image.take
          (layout.total_size - trailerSize layout.trailer_type))).data := by
  have hne : layout.trailer_type ≠ TType.none := by
    intro h
    rw [h] at ht
    exact Nat.lt_irrefl 0 ht
  have himg : (generateSingleImage objects layout rngStream now).image =
      pySliceAssign (asmBuffer objects layout rngStream now)
        (layout.total_size - trailerSize layout.trailer_type)
        (generateTrailer layout.trailer_type
          ((asmBuffer objects layout rngStream now).take
            (layout.total_size - trailerSize layout.trailer_type))).data := by
    simp only [generateSingleImage]
    rw [if_pos hne]
    rfl
  rw [himg]
  rw [pySliceAssign_take _ _ _ (by omega)]
  rw [pySliceAssign_drop _ _ _ (by rw [generateTrailer_length]; omega)]

/-- Witness for C3 on the minimal hand-written layout `layW`. -/
theorem c3_witness :
    (generateSingleImage objW layW [] 0).image.drop
        (layW.total_size - trailerSize layW.trailer_type) =
      (generateTrailer layW.trailer_type
        ((generateSingleImage objW layW [] 0).image.take
          (layW.total_size - trailerSize layW.trailer_type))).data :=
  c3_trailer_roundtrip objW layW [] 0 (by decide) (by decide) (by decide)

/-! ## C4: the U-Boot header fields -/

set_option maxRecDepth 1000000 in
/-- Counterexample to C4: in the concrete U-Boot image `outC4a`, bytes
16..20 read as a big-endian u32 hold the load address (0 for arm32), not
`total_size - 64` (which is 448). -/
theorem c4_counterexample :
    readBE32 outC4a.image 16 ≠ layC4.total_size - 64 := by
  decide

/-- C4 (amended): in every header produced by the `uboot` generator,
bytes 0..3 big-endian hold the magic `0x27051956`; the `total_size - 64`
value (masked to 32 bits, clamped at zero) sits at bytes 12..16 — the
`data_size` field — while bytes 16..20 hold the load address
`base_addr % 2^32`. -/
theorem c4_uboot_fields (rng : Rng) (total_size base_addr : Nat)
    (family : Fam) (now : Nat) :
    readBE32 ((uboot rng total_size base_addr family now).1).data 0 =
      0x27051956 ∧
    readBE32 ((uboot rng total_size base_addr family now).1).data 12 =
      (total_size - 64) % 2 ^ 32 ∧
    readBE32 ((uboot rng total_size base_addr family now).1).data 16 =
      base_addr % 2 ^ 32 := by
  refine ⟨?_, ?_, ?_⟩ <;>
    simp only [uboot, readBE32, readHeadBE, u32be, List.cons_append,
      List.nil_append, List.take_succ_cons, List.take_zero,
      List.drop_succ_cons, List.drop_zero, List.append_nil] <;>
    omega

/-! ## C2: the tiling of the section list -/

set_option maxRecDepth 1000000 in
/-- C2 (refuted on a reachable layout): the sections of `layC2` — a
layout emitted by `generate_layout` — do not tile `[0, total_size)`.
They are consecutive from offset 0, but the alignment padding inserted
inside the code loop is not deducted from the byte budgets, so the run
of sections ends at 514 while `total_size` is 512. -/
theorem c2_sections_overrun :
    layC2.total_size = 512 ∧
    tilesFrom 0 layC2.total_size layC2.sections = false ∧
    tilesFrom 0 514 layC2.sections = true := by
  exact ⟨by decide, by decide, by decide⟩

/-! ## C1: run-to-run determinism -/

set_option maxRecDepth 1000000 in
/-- C1 (refuted): two assemblies of the very same layout from the same
object store and the same per-image draw stream — differing only in the
wall-clock second `time.time()` returned (1000 versus 1001) — produce
different image bytes: the clock enters the U-Boot `timestamp` field and,
through it, the header CRC. -/
theorem c1_wallclock_nondeterminism : outC4a.image ≠ outC4b.image := by
  intro h
  have h8 := congrArg (fun l => readBE32 l 8) h
  exact absurd h8 (by decide)

/-! ## C9: code sections whose blob is missing -/

/-- C9: when a Code section's named blob is absent from the object store
and the family has no fallback `.bin`, `generate_single_image` leaves the
buffer untouched for that section (its bytes remain the 0xFF pre-fill),
still records the section in the sidecar as `"code"` with its full
planned size (and the stale source names), and the worker result still
reports success. -/
theorem c9_missing_blob (objects : ObjectsDir) (header_type : HType)
    (endianness : Endian) (base_addr total_size now : Nat) (primary : Fam)
    (st : AsmState) (sec : SectionSpec)
    (hcode : sec.section_type = SType.code)
    (f : Fam) (t pr c : String)
    (hfp : sec.fill_params = FillParams.codeFill f t pr c)
    (hlook : objects.lookup (sec.isa_family.getD primary) t c pr =
      Option.none)
    (hfb : objects.fallback (sec.isa_family.getD primary) = Option.none) :
    (processSection objects header_type endianness base_addr total_size now
        primary st sec).image = st.image ∧
    (processSection objects header_type endianness base_addr total_size now
        primary st sec).sections = st.sections ++
      [{ offset := sec.offset, size := sec.size, stype := "code",
         isa_family := sec.isa_family, source_triple := t,
         source_program := pr, source_config := c }] ∧
    ∀ (layout : ImageLayout) (rngStream : List Nat) (now2 : Nat),
      (generateSingleImage objects layout rngStream now2).result.success =
        true := by
  refine ⟨?_, ?_, fun layout rngStream now2 => rfl⟩ <;>
    simp [processSection, hcode, hfp, hlook, hfb]

/-- Witness for C9: an arm32 code section against an empty object store. -/
theorem c9_witness :
    (processSection objW HType.bare Endian.little 0 64 0 Fam.arm32 stC9
        secC9).image = stC9.image ∧
    (processSection objW HType.bare Endian.little 0 64 0 Fam.arm32 stC9
        secC9).sections = stC9.sections ++
      [{ offset := secC9.offset, size := secC9.size, stype := "code",
         isa_family := secC9.isa_family, source_triple := "t",
         source_program := "p", source_config := "c" }] ∧
    ∀ (layout : ImageLayout) (rngStream : List Nat) (now2 : Nat),
      (generateSingleImage objW layout rngStream now2).result.success =
        true :=
  c9_missing_blob objW HType.bare Endian.little 0 64 0 Fam.arm32 stC9 secC9
    rfl Fam.arm32 "t" "p" "c" rfl rfl rfl

/-! ## The shuffle is a permutation -/

/-- Setting an index back to its own element changes nothing. -/
theorem set_getElem_self {α : Type} (l : List α) (i : Nat)
    (h : i < l.length) : l.set i l[i] = l := by
  apply List.ext_getElem
  · simp
  · intro n h1 h2
    rw [List.getElem_set]
    split
    · rename_i he
      subst he
      rfl
    · rfl

/-- `x[i], x[j] = x[j], x[i]` permutes the list. -/
theorem listSwap_perm {α : Type} [DecidableEq α] (l : List α) (i j : Nat) :
    (listSwap l i j).Perm l := by
  rw [listSwap]
  split
  · rename_i a b hi hj
    obtain ⟨hilt, hia⟩ := List.getElem?_eq_some.mp hi
    obtain ⟨hjlt, hjb⟩ := List.getElem?_eq_some.mp hj
    by_cases hij : i = j
    · subst hij
      rw [List.set_set]
      have hab : a = b := by rw [← hia, ← hjb]
      subst hab
      rw [← hia, set_getElem_self]
    · rw [List.perm_iff_count]
      intro x
      have hjlt2 : j < (l.set i b).length := by
        rw [List.length_set]
        exact hjlt
      rw [List.count_set _ _ _ _ hjlt2, List.count_set _ _ _ _ hilt]
      have hgj : (l.set i b)[j] = l[j] := List.getElem_set_of_ne hij b hjlt2
      rw [hgj, hjb, hia]
      have hamem : a ∈ l := hia ▸ List.getElem_mem hilt
      have hble : (if (a == x) = true then 1 else 0) ≤ List.count x l := by
        split
        · rename_i hbx
          have hx : x ∈ l := eq_of_beq hbx ▸ hamem
          exact List.count_pos_iff.mpr hx
        · exact Nat.zero_le _
      omega
  · exact List.Perm.refl l

/-- Each pass of the shuffle loop permutes the list. -/
theorem pyShuffleGo_perm {α : Type} [DecidableEq α] (rng : Rng)
    (l : List α) (n : Nat) : ((pyShuffleGo rng l n).1).Perm l := by
  induction n generalizing rng l with
  | zero => exact List.Perm.refl l
  | succ k ih =>
    rw [pyShuffleGo]
    exact (ih _ _).trans (listSwap_perm l (k + 1) (rng.next.1 % (k + 2)))

/-- `random.shuffle` permutes the list. -/
theorem pyShuffle_perm {α : Type} [DecidableEq α] (rng : Rng)
    (l : List α) : ((pyShuffle rng l).1).Perm l :=
  pyShuffleGo_perm rng l (l.length - 1)

/-! ## C10: batch size and per-family coverage -/

/-- Sum of a constant map. -/
theorem sum_map_const {α : Type} (l : List α) (b : Nat) :
    (l.map (fun _ => b)).sum = b * l.length := by
  induction l with
  | nil => simp
  | cons x xs ih =>
    simp only [List.map_cons, List.sum_cons, ih, List.length_cons,
      Nat.mul_succ]
    omega

/-- Sum of a constant-shifted map. -/
theorem sum_map_add {α : Type} (l : List α) (b : Nat) (f : α → Nat) :
    (l.map (fun x => b + f x)).sum = b * l.length + (l.map f).sum := by
  induction l with
  | nil => simp
  | cons x xs ih =>
    simp only [List.map_cons, List.sum_cons, ih, List.length_cons,
      Nat.mul_succ]
    omega

/-- `quotas[fam] += 1` keeps the key column unchanged. -/
theorem bumpQuota_keys (q : List (Fam × Nat)) (g : Fam) :
    (bumpQuota q g).map Prod.fst = q.map Prod.fst := by
  induction q with
  | nil => rfl
  | cons hd tl ih =>
    obtain ⟨f, n⟩ := hd
    rw [bumpQuota]
    split
    · simp
    · simp [ih]

/-- `quotas[fam] += 1` adds one to the total when the key is present. -/
theorem bumpQuota_sum (q : List (Fam × Nat)) (g : Fam)
    (hg : g ∈ q.map Prod.fst) :
    ((bumpQuota q g).map Prod.snd).sum = (q.map Prod.snd).sum + 1 := by
  induction q with
  | nil => exact absurd hg (List.not_mem_nil g)
  | cons hd tl ih =>
    obtain ⟨f, n⟩ := hd
    rw [bumpQuota]
    split
    · simp
      omega
    · rename_i hne
      have hg' : g ∈ tl.map Prod.fst := by
        rcases List.mem_cons.mp hg with h | h
        · exact absurd h.symm hne
        · exact h
      simp [ih hg']
      omega

/-- `quotas[fam] += 1` never lowers an entry below a common bound. -/
theorem bumpQuota_min (q : List (Fam × Nat)) (g : Fam) (b : Nat)
    (h : ∀ fq ∈ q, b ≤ fq.2) : ∀ fq ∈ bumpQuota q g, b ≤ fq.2 := by
  induction q with
  | nil => intro fq hfq; exact absurd hfq (List.not_mem_nil fq)
  | cons hd tl ih =>
    obtain ⟨f, n⟩ := hd
    intro fq hfq
    rw [bumpQuota] at hfq
    have hn : b ≤ n := h (f, n) (List.mem_cons_self _ _)
    have htl : ∀ fq ∈ tl, b ≤ fq.2 :=
      fun x hx => h x (List.mem_cons_of_mem _ hx)
    split at hfq
    · rcases List.mem_cons.mp hfq with he | ht
      · rw [he]
        exact Nat.le_succ_of_le hn
      · exact htl fq ht
    · rcases List.mem_cons.mp hfq with he | ht
      · rw [he]
        exact hn
      · exact ih htl fq ht

/-- The rounding loop keeps the key column unchanged. -/
theorem distributeLeftover_keys (sf : List (Fam × Q)) :
    ∀ (k : Nat) (q : List (Fam × Nat)) (i : Nat),
    (distributeLeftover sf q k i).map Prod.fst = q.map Prod.fst := by
  intro k
  induction k with
  | zero => intro q i; rfl
  | succ n ih =>
    intro q i
    rw [distributeLeftover, ih, bumpQuota_keys]

/-- The rounding loop keeps every entry above a common bound. -/
theorem distributeLeftover_min (sf : List (Fam × Q)) (b : Nat) :
    ∀ (k : Nat) (q : List (Fam × Nat)) (i : Nat),
    (∀ fq ∈ q, b ≤ fq.2) →
    ∀ fq ∈ distributeLeftover sf q k i, b ≤ fq.2 := by
  intro k
  induction k with
  | zero => intro q i h; exact h
  | succ n ih =>
    intro q i h
    rw [distributeLeftover]
    exact ih _ _ (bumpQuota_min q _ b h)

/-- The rounding loop adds exactly its count to the total: every bump
hits a key of the table. -/
theorem distributeLeftover_sum (sf : List (Fam × Q)) :
    ∀ (k : Nat) (q : List (Fam × Nat)) (i : Nat), sf ≠ [] →
    (∀ fw ∈ sf, fw.1 ∈ q.map Prod.fst) →
    ((distributeLeftover sf q k i).map Prod.snd).sum =
      (q.map Prod.snd).sum + k := by
  intro k
  induction k with
  | zero => intro q i _ _; rfl
  | succ n ih =>
    intro q i hsf hpick
    rw [distributeLeftover]
    have hlen : 0 < sf.length := List.length_pos.mpr hsf
    have hlt : i % sf.length < sf.length := Nat.mod_lt _ hlen
    have hmem : sf.getD (i % sf.length) (.arm32, ⟨0, 1⟩) ∈ sf := by
      rw [List.getD_eq_getElem sf _ hlt]
      exact List.getElem_mem hlt
    have hkey := hpick _ hmem
    have hpick' : ∀ fw ∈ sf, fw.1 ∈
        (bumpQuota q (sf.getD (i % sf.length) (.arm32, ⟨0, 1⟩)).1).map
          Prod.fst := by
      rw [bumpQuota_keys]
      exact hpick
    rw [ih _ _ hsf hpick', bumpQuota_sum q _ hkey]
    omega

/-- `buildQuotas` keeps the weight table's key column. -/
theorem buildQuotas_keys (w : List (Fam × Q)) (count : Nat) :
    (buildQuotas w count).map Prod.fst = w.map Prod.fst := by
  rw [buildQuotas]
  dsimp only
  split
  · rw [distributeLeftover_keys]
    simp [List.map_map, Function.comp]
  · simp [List.map_map, Function.comp]

/-- Every quota is at least one. -/
theorem buildQuotas_min (w : List (Fam × Q)) (count : Nat) :
    ∀ fq ∈ buildQuotas w count, 1 ≤ fq.2 := by
  rw [buildQuotas]
  dsimp only
  split
  · apply distributeLeftover_min
    intro fq hfq
    obtain ⟨fw, hfw, hrfl⟩ := List.mem_map.mp hfq
    have h1 : 1 ≤ max 1 (count / w.length) := le_max_left 1 _
    rw [← hrfl]
    dsimp only
    omega
  · intro fq hfq
    obtain ⟨fw, hfw, hrfl⟩ := List.mem_map.mp hfq
    rw [← hrfl]
    exact le_max_left 1 _

/-- `buildQuotas` has one entry per weighted family. -/
theorem buildQuotas_length (w : List (Fam × Q)) (count : Nat) :
    (buildQuotas w count).length = w.length := by
  have h := congrArg List.length (buildQuotas_keys w count)
  simpa using h

/-- The quotas sum to at least the requested count. -/
theorem buildQuotas_sum (w : List (Fam × Q)) (count : Nat) (hw : w ≠ []) :
    count ≤ ((buildQuotas w count).map Prod.snd).sum := by
  rw [buildQuotas]
  dsimp only
  split
  · rename_i hrem
    have hperm := List.perm_insertionSort
      (fun a b : Fam × Q => Q.ble b.2 a.2 = true) w
    rw [distributeLeftover_sum]
    · rw [show (w.map (fun fw =>
          (fw.1, max 1 (count / w.length) +
            (((Q.ofNat (count - max 1 (count / w.length) * w.length)).mul
              fw.2).div (Q.sumList (w.map Prod.snd))).floorToNat))).map
            Prod.snd =
          w.map (fun fw => max 1 (count / w.length) +
            (((Q.ofNat (count - max 1 (count / w.length) * w.length)).mul
              fw.2).div (Q.sumList (w.map Prod.snd))).floorToNat) from by
        simp [List.map_map, Function.comp]]
      rw [sum_map_add]
      omega
    · intro hnil
      rw [hnil] at hperm
      exact hw hperm.nil_eq.symm
    · intro fw hfw
      have hfw' : fw ∈ w := hperm.mem_iff.mp hfw
      rw [show (w.map (fun fw =>
          (fw.1, max 1 (count / w.length) +
            (((Q.ofNat (count - max 1 (count / w.length) * w.length)).mul
              fw.2).div (Q.sumList (w.map Prod.snd))).floorToNat))).map
            Prod.fst = w.map Prod.fst from by
        simp [List.map_map, Function.comp]]
      exact List.mem_map_of_mem Prod.fst hfw'
  · rename_i hrem
    have hsum : ((w.map (fun fw =>
        (fw.1, max 1 (count / w.length)))).map Prod.snd).sum =
        max 1 (count / w.length) * w.length := by
      rw [show (w.map (fun fw => (fw.1, max 1 (count / w.length)))).map
          Prod.snd = w.map (fun _ => max 1 (count / w.length)) from by
        rw [List.map_map]
        rfl]
      exact sum_map_const w _
    rw [hsum]
    omega

/-- With every quota at least one, the total is at least the table
length. -/
theorem sum_ge_length (q : List (Fam × Nat))
    (h : ∀ fq ∈ q, 1 ≤ fq.2) : q.length ≤ (q.map Prod.snd).sum := by
  induction q with
  | nil => simp
  | cons hd tl ih =>
    have h1 := h hd (List.mem_cons_self _ _)
    have h2 := ih (fun x hx => h x (List.mem_cons_of_mem _ hx))
    simp only [List.length_cons, List.map_cons, List.sum_cons]
    omega

/-- The phase-1 inner loop emits exactly its quota. -/
theorem genQuotaLayouts_len (idx : BlobIndex) (cfg : FirmwareGenConfig)
    (streamOf : Nat → List Nat) (master_seed : Nat) (fam : Fam) :
    ∀ (k seq : Nat),
    ((genQuotaLayouts idx cfg streamOf master_seed fam k seq).1).length =
      k := by
  intro k
  induction k with
  | zero => intro seq; rfl
  | succ n ih =>
    intro seq
    rw [genQuotaLayouts]
    dsimp only
    rw [List.length_cons, ih]

/-- Phase 1 emits exactly the quota sum. -/
theorem genPhase1_len (idx : BlobIndex) (cfg : FirmwareGenConfig)
    (streamOf : Nat → List Nat) (master_seed : Nat) :
    ∀ (quotas : List (Fam × Nat)) (seq : Nat),
    ((genPhase1 idx cfg streamOf master_seed quotas seq).1).length =
      (quotas.map Prod.snd).sum := by
  intro quotas
  induction quotas with
  | nil => intro seq; rfl
  | cons hd tl ih =>
    intro seq
    obtain ⟨f, q⟩ := hd
    rw [genPhase1]
    dsimp only
    rw [List.length_append, genQuotaLayouts_len, ih]
    simp

/-- A positive quota's family heads its own run of layouts. -/
theorem genQuotaLayouts_head_mem (idx : BlobIndex)
    (cfg : FirmwareGenConfig) (streamOf : Nat → List Nat)
    (master_seed : Nat) (fam : Fam) (k seq : Nat) (hk : 1 ≤ k) :
    ∃ l ∈ (genQuotaLayouts idx cfg streamOf master_seed fam k seq).1,
      l.primary_isa = fam := by
  cases k with
  | zero => exact absurd hk (by omega)
  | succ n =>
    rw [genQuotaLayouts]
    exact ⟨_, List.mem_cons_self _ _, rfl⟩

/-- Every family with a positive quota appears as a primary in phase 1. -/
theorem genPhase1_mem (idx : BlobIndex) (cfg : FirmwareGenConfig)
    (streamOf : Nat → List Nat) (master_seed : Nat) :
    ∀ (quotas : List (Fam × Nat)) (seq : Nat) (f : Fam) (q : Nat),
    (f, q) ∈ quotas → 1 ≤ q →
    ∃ l ∈ (genPhase1 idx cfg streamOf master_seed quotas seq).1,
      l.primary_isa = f := by
  intro quotas
  induction quotas with
  | nil => intro seq f q h _; exact absurd h (List.not_mem_nil _)
  | cons hd tl ih =>
    intro seq f q hmem hq
    obtain ⟨f0, q0⟩ := hd
    rw [genPhase1]
    dsimp only
    rcases List.mem_cons.mp hmem with he | ht
    · obtain ⟨he1, he2⟩ := Prod.mk.injEq .. ▸ he
      subst he1
      subst he2
      obtain ⟨l, hl, hp⟩ := genQuotaLayouts_head_mem idx cfg streamOf
        master_seed f q seq hq
      exact ⟨l, List.mem_append_left _ hl, hp⟩
    · obtain ⟨l, hl, hp⟩ := ih _ f q ht hq
      exact ⟨l, List.mem_append_right _ hl, hp⟩

/-- C10: with at least one weighted family, `generate_batch(count, seed)`
returns at least `count` layouts, at least one layout with each weighted
family as primary, and strictly more than `count` layouts whenever
`count` is smaller than the number of families holding blobs. -/
theorem c10_batch_size_and_coverage (idx : BlobIndex)
    (cfg : FirmwareGenConfig) (streamOf : Nat → List Nat)
    (count master_seed : Nat) (hcount : 1 ≤ count)
    (hw : familyWeights idx ≠ []) :
    count ≤ (generateBatch idx cfg streamOf count master_seed).length ∧
    (∀ fw ∈ familyWeights idx,
      ∃ l ∈ generateBatch idx cfg streamOf count master_seed,
        l.primary_isa = fw.1) ∧
    (count < (familyWeights idx).length →
      count < (generateBatch idx cfg streamOf count master_seed).length)
    := by
  obtain ⟨ph2, hperm⟩ : ∃ ph2,
      (generateBatch idx cfg streamOf count master_seed).Perm
        ((genPhase1 idx cfg streamOf master_seed
          (buildQuotas (familyWeights idx) count) 0).1 ++ ph2) :=
    ⟨_, pyShuffle_perm _ _⟩
  have hlen := hperm.length_eq
  rw [List.length_append] at hlen
  have hph1len := genPhase1_len idx cfg streamOf master_seed
    (buildQuotas (familyWeights idx) count) 0
  have hsum := buildQuotas_sum (familyWeights idx) count hw
  have hminlen := sum_ge_length (buildQuotas (familyWeights idx) count)
    (buildQuotas_min (familyWeights idx) count)
  have hqlen := buildQuotas_length (familyWeights idx) count
  refine ⟨by omega, ?_, by omega⟩
  intro fw hfw
  have hkey : fw.1 ∈ (buildQuotas (familyWeights idx) count).map
      Prod.fst := by
    rw [buildQuotas_keys]
    exact List.mem_map_of_mem Prod.fst hfw
  obtain ⟨fq, hfq, hfq1⟩ := List.mem_map.mp hkey
  have h1q := buildQuotas_min (familyWeights idx) count fq hfq
  obtain ⟨l, hl, hp⟩ := genPhase1_mem idx cfg streamOf master_seed _ 0
    fq.1 fq.2 hfq h1q
  exact ⟨l, (hperm.mem_iff).mpr (List.mem_append_left _ hl),
    by rw [hp, hfq1]⟩

/-- Witness for C10 on the two-blob Thumb index with `count = 1`: two
weighted families would need two layouts, so the batch is strictly longer
than one. -/
theorem c10_witness :
    1 ≤ (generateBatch idxC2 cfgC2 (fun _ => []) 1 0).length ∧
    (∀ fw ∈ familyWeights idxC2,
      ∃ l ∈ generateBatch idxC2 cfgC2 (fun _ => []) 1 0,
        l.primary_isa = fw.1) ∧
    (1 < (familyWeights idxC2).length →
      1 < (generateBatch idxC2 cfgC2 (fun _ => []) 1 0).length) :=
  c10_batch_size_and_coverage idxC2 cfgC2 (fun _ => []) 1 0 (by decide)
    (by decide)

/-! ## C7: the per-combination floor

The development runs in four steps: (1) phase-1 layouts carry a
duplicate-free family list headed by their primary; (2) a combo label is
therefore a sorted duplicate-free list containing the primary of any
layout that bears it, so the phase-2 rebuild `primary + label minus
primary`, re-sorted, is the label itself; (3) the phase-2 loop therefore
tops every listed label up to `min_images_per_combo`; (4) the final
shuffle permutes the batch, preserving the counts. -/

/-- A weighted choice from a nonempty table returns a listed item: the
fallback itself is the last listed item. -/
theorem weightedChoice_fst_mem_of_ne {α : Type} (rng : Rng)
    (options : List (α × Q)) (d : α) (h : options ≠ []) :
    (weightedChoice rng options d).1 ∈ options.map Prod.fst := by
  obtain ⟨x, hx⟩ : ∃ x, options.getLast? = Option.some x := by
    cases hox : options.getLast? with
    | none => exact absurd (List.getLast?_eq_none_iff.mp hox) h
    | some y => exact ⟨y, rfl⟩
  have hxm : x ∈ options := by
    obtain ⟨hne, hx2⟩ := List.mem_getLast?_eq_getLast (l := options) hx
    exact hx2 ▸ List.getLast_mem hne
  show weightedGo (((options.getLast? ).map Prod.fst).getD d)
    ((rng.randomQ.1).mul (Q.sumList (options.map Prod.snd)))
    options ⟨0, 1⟩ ∈ options.map Prod.fst
  rcases weightedGo_mem (((options.getLast? ).map Prod.fst).getD d)
    ((rng.randomQ.1).mul (Q.sumList (options.map Prod.snd))) options
    ⟨0, 1⟩ with hm | he
  · exact hm
  · rw [he, hx]
    exact List.mem_map_of_mem Prod.fst hxm

/-- The secondary-pick loop returns distinct families drawn from the
pool's keys. -/
theorem pickSecondariesLoop_good :
    ∀ (n : Nat) (rng : Rng) (pool : List (Fam × Q)), pool ≠ [] →
    ((pickSecondariesLoop rng pool n).1).Nodup ∧
    ∀ f ∈ (pickSecondariesLoop rng pool n).1, f ∈ pool.map Prod.fst := by
  intro n
  induction n with
  | zero =>
    intro rng pool _
    exact ⟨List.nodup_nil, fun f hf => absurd hf (List.not_mem_nil f)⟩
  | succ k ih =>
    intro rng pool hpool
    rw [pickSecondariesLoop]
    dsimp only
    have hpick : (weightedChoice rng pool Fam.arm32).1 ∈
        pool.map Prod.fst :=
      weightedChoice_fst_mem_of_ne rng pool Fam.arm32 hpool
    split
    · exact ⟨List.nodup_singleton _,
        fun f hf => (List.mem_singleton.mp hf) ▸ hpick⟩
    · rename_i hpool2
      obtain ⟨hnd, hsub⟩ := ih _ _ hpool2
      have hsub2 : ∀ f ∈ (pickSecondariesLoop
          (weightedChoice rng pool Fam.arm32).2
          (pool.filter (fun fw =>
            fw.1 != (weightedChoice rng pool Fam.arm32).1)) k).1,
          f ∈ pool.map Prod.fst ∧
            f ≠ (weightedChoice rng pool Fam.arm32).1 := by
        intro f hf
        have hf2 := hsub f hf
        obtain ⟨fw, hfw, hffw⟩ := List.mem_map.mp hf2
        have hfw2 := List.mem_of_mem_filter hfw
        have hne2 := List.of_mem_filter hfw
        refine ⟨hffw ▸ List.mem_map_of_mem Prod.fst hfw2, ?_⟩
        rw [← hffw]
        exact bne_iff_ne.mp hne2
      constructor
      · refine List.Nodup.cons ?_ hnd
        intro hmem
        exact (hsub2 _ hmem).2 rfl
      · intro f hf
        rcases List.mem_cons.mp hf with he | ht
        · exact he ▸ hpick
        · exact (hsub2 f ht).1

/-- No family's affinity table lists the family itself. -/
theorem affinity_no_self :
    ∀ p : Fam, ∀ fw ∈ MULTI_ISA_AFFINITY p, fw.1 ≠ p := by
  intro p
  cases p <;> decide

/-- The secondary families are distinct and never include the primary. -/
theorem pickSecondaryIsas_good (idx : BlobIndex) (primary : Fam)
    (rng : Rng) :
    ((pickSecondaryIsas idx primary rng).1).Nodup ∧
    primary ∉ (pickSecondaryIsas idx primary rng).1 := by
  have hkeysFb : ∀ g ∈ ((familyWeights idx).filterMap (fun fw =>
      if fw.1 != primary then Option.some (fw.1, (⟨1, 1⟩ : Q))
      else Option.none)).map Prod.fst, g ≠ primary := by
    intro g hg
    obtain ⟨fw, hfw, hgfw⟩ := List.mem_map.mp hg
    obtain ⟨fw0, _, hite⟩ := List.mem_filterMap.mp hfw
    by_cases hb : fw0.1 != primary
    · rw [if_pos hb] at hite
      obtain rfl := Option.some.inj hite
      rw [← hgfw]
      exact bne_iff_ne.mp hb
    · rw [if_neg hb] at hite
      exact Option.noConfusion hite
  have hkeysAf : ∀ g ∈ ((MULTI_ISA_AFFINITY primary).filter
      (fun fw => idx.blob_count fw.1 > 0)).map Prod.fst, g ≠ primary := by
    intro g hg
    obtain ⟨fw, hfw, hgfw⟩ := List.mem_map.mp hg
    exact hgfw ▸ affinity_no_self primary fw (List.mem_of_mem_filter hfw)
  rw [pickSecondaryIsas]
  dsimp only
  split
  · split
    · exact ⟨List.nodup_nil, List.not_mem_nil primary⟩
    · rename_i hne
      obtain ⟨hnd, hsub⟩ := pickSecondariesLoop_good _ _ _ hne
      exact ⟨hnd, fun hmem => hkeysFb primary (hsub primary hmem) rfl⟩
  · rename_i hav
    obtain ⟨hnd, hsub⟩ := pickSecondariesLoop_good _ _ _ hav
    exact ⟨hnd, fun hmem => hkeysAf primary (hsub primary hmem) rfl⟩

/-- A phase-1 layout's family list is its primary followed by distinct
secondaries that never repeat the primary. -/
theorem generateLayout_primary_structure (idx : BlobIndex)
    (cfg : FirmwareGenConfig) (rng : Rng) (seq : Nat) (f : Fam) :
    (generateLayout idx cfg rng seq (Option.some f)
      Option.none).primary_isa = f ∧
    ∃ s, (generateLayout idx cfg rng seq (Option.some f)
        Option.none).all_isa_families = f :: s ∧ s.Nodup ∧ f ∉ s := by
  refine ⟨rfl, ?_⟩
  show ∃ s, (pickAllFamilies idx cfg f Option.none rng).1 = f :: s ∧
    s.Nodup ∧ f ∉ s
  rw [pickAllFamilies]
  split
  · obtain ⟨hnd, hnm⟩ := pickSecondaryIsas_good idx f rng.randomQ.2
    exact ⟨_, rfl, hnd, hnm⟩
  · exact ⟨[], rfl, List.nodup_nil, List.not_mem_nil f⟩

/-- Every layout the phase-1 inner loop emits is a plain forced-primary
`generate_layout` call. -/
theorem genQuotaLayouts_shape (idx : BlobIndex) (cfg : FirmwareGenConfig)
    (streamOf : Nat → List Nat) (master_seed : Nat) (fam : Fam) :
    ∀ (k seq : Nat),
    ∀ x ∈ (genQuotaLayouts idx cfg streamOf master_seed fam k seq).1,
    ∃ (rng : Rng) (sq : Nat),
      x = generateLayout idx cfg rng sq (Option.some fam) Option.none := by
  intro k
  induction k with
  | zero => intro seq x hx; exact absurd hx (List.not_mem_nil x)
  | succ n ih =>
    intro seq x hx
    rw [genQuotaLayouts] at hx
    dsimp only at hx
    rcases List.mem_cons.mp hx with he | ht
    · exact ⟨_, _, he⟩
    · exact ih _ x ht

/-- Every phase-1 layout is a plain forced-primary `generate_layout`
call. -/
theorem genPhase1_shape (idx : BlobIndex) (cfg : FirmwareGenConfig)
    (streamOf : Nat → List Nat) (master_seed : Nat) :
    ∀ (quotas : List (Fam × Nat)) (seq : Nat),
    ∀ x ∈ (genPhase1 idx cfg streamOf master_seed quotas seq).1,
    ∃ (f : Fam) (rng : Rng) (sq : Nat),
      x = generateLayout idx cfg rng sq (Option.some f) Option.none := by
  intro quotas
  induction quotas with
  | nil => intro seq x hx; exact absurd hx (List.not_mem_nil x)
  | cons hd tl ih =>
    intro seq x hx
    obtain ⟨f0, q0⟩ := hd
    rw [genPhase1] at hx
    dsimp only at hx
    rcases List.mem_append.mp hx with h | h
    · obtain ⟨rng, sq, he⟩ := genQuotaLayouts_shape idx cfg streamOf
        master_seed f0 q0 seq x h
      exact ⟨f0, rng, sq, he⟩
    · exact ih _ x h

/-- `famIdx` (the alphabetical rank of the family name) is injective. -/
theorem famIdx_inj : ∀ a b : Fam, famIdx a = famIdx b → a = b := by
  intro a b
  cases a <;> cases b <;> decide

/-- The label sort emits a sorted list. -/
theorem sortFams_sorted (l : List Fam) :
    (sortFams l).Sorted (fun a b => famIdx a ≤ famIdx b) := by
  haveI ht : IsTotal Fam (fun a b => famIdx a ≤ famIdx b) :=
    ⟨fun a b => Nat.le_total _ _⟩
  haveI htr : IsTrans Fam (fun a b => famIdx a ≤ famIdx b) :=
    ⟨fun a b c => Nat.le_trans⟩
  exact List.sorted_insertionSort _ l

/-- The label sort permutes its input. -/
theorem sortFams_perm (l : List Fam) : (sortFams l).Perm l :=
  List.perm_insertionSort _ l

/-- Re-sorting a sorted duplicate-free label around one of its members
reproduces the label: the phase-2 rebuild `primary + (label minus
primary)` is exact. -/
theorem sortFams_rebuild (L : List Fam) (P : Fam) (hnd : L.Nodup)
    (hP : P ∈ L) (hs : L.Sorted (fun a b => famIdx a ≤ famIdx b)) :
    sortFams (P :: L.filter (fun f => f != P)) = L := by
  haveI ha : IsAntisymm Fam (fun a b => famIdx a ≤ famIdx b) :=
    ⟨fun a b h1 h2 => famIdx_inj a b (Nat.le_antisymm h1 h2)⟩
  have hfe : L.filter (fun f => f != P) = L.erase P :=
    (List.Nodup.erase_eq_filter hnd P).symm
  have hperm : (sortFams (P :: L.filter (fun f => f != P))).Perm L := by
    refine (sortFams_perm _).trans ?_
    rw [hfe]
    exact (List.perm_cons_erase hP).symm
  exact List.eq_of_perm_of_sorted hperm (sortFams_sorted _) hs

/-- `combo_counts` adds over concatenation. -/
theorem countLabel_append (a b : List ImageLayout) (L : List Fam) :
    countLabel (a ++ b) L = countLabel a L + countLabel b L := by
  simp [countLabel, List.filter_append]

/-- `combo_counts` is invariant under permutation. -/
theorem countLabel_perm {a b : List ImageLayout} (h : a.Perm b)
    (L : List Fam) : countLabel a L = countLabel b L :=
  List.Perm.length_eq (h.filter _)

/-- Every forced-combo layout wears the rebuilt label. -/
theorem genForcedLayouts_labels (idx : BlobIndex) (cfg : FirmwareGenConfig)
    (streamOf : Nat → List Nat) (master_seed : Nat) (primary : Fam)
    (secondaries : List Fam) :
    ∀ (k seq : Nat),
    ∀ l ∈ (genForcedLayouts idx cfg streamOf master_seed primary
      secondaries k seq).1,
    l.isaLabel = sortFams (primary :: secondaries) := by
  intro k
  induction k with
  | zero => intro seq l hl; exact absurd hl (List.not_mem_nil l)
  | succ n ih =>
    intro seq l hl
    rw [genForcedLayouts] at hl
    dsimp only at hl
    rcases List.mem_cons.mp hl with he | ht
    · rw [he]
      rfl
    · exact ih _ l ht

/-- The forced-combo loop emits exactly its count. -/
theorem genForcedLayouts_len (idx : BlobIndex) (cfg : FirmwareGenConfig)
    (streamOf : Nat → List Nat) (master_seed : Nat) (primary : Fam)
    (secondaries : List Fam) :
    ∀ (k seq : Nat),
    ((genForcedLayouts idx cfg streamOf master_seed primary secondaries k
      seq).1).length = k := by
  intro k
  induction k with
  | zero => intro seq; rfl
  | succ n ih =>
    intro seq
    rw [genForcedLayouts]
    dsimp only
    rw [List.length_cons, ih]

/-- The forced-combo loop contributes its full count to its own label. -/
theorem genForcedLayouts_count (idx : BlobIndex) (cfg : FirmwareGenConfig)
    (streamOf : Nat → List Nat) (master_seed : Nat) (primary : Fam)
    (secondaries : List Fam) (k seq : Nat) :
    countLabel (genForcedLayouts idx cfg streamOf master_seed primary
        secondaries k seq).1 (sortFams (primary :: secondaries)) = k := by
  have hall : ∀ l ∈ (genForcedLayouts idx cfg streamOf master_seed primary
      secondaries k seq).1,
      (decide (l.isaLabel = sortFams (primary :: secondaries))) = true :=
    fun l hl => decide_eq_true
      (genForcedLayouts_labels idx cfg streamOf master_seed primary
        secondaries k seq l hl)
  rw [countLabel, List.filter_eq_self.mpr hall]
  exact genForcedLayouts_len idx cfg streamOf master_seed primary
    secondaries k seq

/-- The phase-2 loop tops every listed label up to the floor, provided the
rebuild is exact for each listed label. -/
theorem genPhase2_count (idx : BlobIndex) (cfg : FirmwareGenConfig)
    (streamOf : Nat → List Nat) (master_seed : Nat)
    (phase1 : List ImageLayout) :
    ∀ (labels : List (List Fam)) (seq : Nat) (L : List Fam),
    L ∈ labels →
    (∀ L' ∈ labels,
      sortFams ((((phase1.find? (fun l => l.isaLabel = L')).map
          ImageLayout.primary_isa).getD .arm32) ::
        L'.filter (fun f => f !=
          (((phase1.find? (fun l => l.isaLabel = L')).map
            ImageLayout.primary_isa).getD .arm32))) = L') →
    cfg.min_images_per_combo ≤
      countLabel phase1 L +
        countLabel (genPhase2 idx cfg streamOf master_seed phase1 labels
          seq).1 L := by
  intro labels
  induction labels with
  | nil => intro seq L hL _; exact absurd hL (List.not_mem_nil L)
  | cons hd tl ih =>
    intro seq L hL hgood
    rw [genPhase2]
    dsimp only
    rcases List.mem_cons.mp hL with he | ht
    · subst he
      split
      · rename_i hneed
        have h2 : 0 ≤ countLabel (genPhase2 idx cfg streamOf master_seed
            phase1 tl seq).1 L := Nat.zero_le _
        omega
      · rename_i hneed
        rw [countLabel_append]
        have h1 := genForcedLayouts_count idx cfg streamOf master_seed
          ((((phase1.find? (fun l => l.isaLabel = L)).map
            ImageLayout.primary_isa).getD .arm32))
          (L.filter (fun f => f !=
            (((phase1.find? (fun l => l.isaLabel = L)).map
              ImageLayout.primary_isa).getD .arm32)))
          ((cfg.min_images_per_combo : Int) -
            (countLabel phase1 L : Int)).toNat seq
        rw [hgood L (List.mem_cons_self _ _)] at h1
        rw [h1]
        omega
    · split
      · exact ih seq L ht
          (fun L' hL' => hgood L' (List.mem_cons_of_mem hd hL'))
      · rw [countLabel_append]
        exact Nat.le_trans
          (ih _ L ht (fun L' hL' => hgood L' (List.mem_cons_of_mem hd hL')))
          (Nat.add_le_add_left (Nat.le_add_left _ _) _)

/-- Every phase-2 layout's label is one of the listed labels. -/
theorem genPhase2_labels (idx : BlobIndex) (cfg : FirmwareGenConfig)
    (streamOf : Nat → List Nat) (master_seed : Nat)
    (phase1 : List ImageLayout) :
    ∀ (labels : List (List Fam)) (seq : Nat),
    (∀ L' ∈ labels,
      sortFams ((((phase1.find? (fun l => l.isaLabel = L')).map
          ImageLayout.primary_isa).getD .arm32) ::
        L'.filter (fun f => f !=
          (((phase1.find? (fun l => l.isaLabel = L')).map
            ImageLayout.primary_isa).getD .arm32))) = L') →
    ∀ l ∈ (genPhase2 idx cfg streamOf master_seed phase1 labels seq).1,
      l.isaLabel ∈ labels := by
  intro labels
  induction labels with
  | nil => intro seq _ l hl; exact absurd hl (List.not_mem_nil l)
  | cons hd tl ih =>
    intro seq hgood l hl
    rw [genPhase2] at hl
    dsimp only at hl
    split at hl
    · exact List.mem_cons_of_mem hd (ih seq
        (fun L' hL' => hgood L' (List.mem_cons_of_mem hd hL')) l hl)
    · rcases List.mem_append.mp hl with h | h
      · have := genForcedLayouts_labels idx cfg streamOf master_seed _ _
          _ _ l h
        rw [this, hgood hd (List.mem_cons_self _ _)]
        exact List.mem_cons_self _ _
      · exact List.mem_cons_of_mem hd (ih _
          (fun L' hL' => hgood L' (List.mem_cons_of_mem hd hL')) l h)

/-- Exactness of the rebuild for every label of a well-shaped layout
list. -/
theorem labels_good_of_shape (ph1 : List ImageLayout)
    (hshape : ∀ x ∈ ph1, x.primary_isa ∈ x.all_isa_families ∧
      x.all_isa_families.Nodup) :
    ∀ L ∈ sortedComboLabels ph1,
    sortFams ((((ph1.find? (fun l => l.isaLabel = L)).map
        ImageLayout.primary_isa).getD .arm32) ::
      L.filter (fun f => f !=
        (((ph1.find? (fun l => l.isaLabel = L)).map
          ImageLayout.primary_isa).getD .arm32))) = L := by
  intro L hL
  have hLd : L ∈ (ph1.map ImageLayout.isaLabel).dedup :=
    (List.perm_insertionSort _ _).mem_iff.mp hL
  have hLm : L ∈ ph1.map ImageLayout.isaLabel := List.mem_dedup.mp hLd
  obtain ⟨l1, hl1, hlab1⟩ := List.mem_map.mp hLm
  have hfind : ∃ x, ph1.find? (fun l => l.isaLabel = L) = Option.some x :=
    Option.isSome_iff_exists.mp
      (List.find?_isSome.mpr ⟨l1, hl1, decide_eq_true hlab1⟩)
  obtain ⟨x, hx⟩ := hfind
  have hxm : x ∈ ph1 := List.mem_of_find?_eq_some hx
  have hxlab : x.isaLabel = L := by
    have h := List.find?_some hx
    simp only [decide_eq_true_eq] at h
    exact h
  obtain ⟨hPmem, hnd⟩ := hshape x hxm
  have hLsort : L.Sorted (fun a b => famIdx a ≤ famIdx b) := by
    rw [← hxlab]
    exact sortFams_sorted _
  have hLperm : L.Perm x.all_isa_families := by
    rw [← hxlab]
    exact sortFams_perm _
  have hLnodup : L.Nodup := hLperm.nodup_iff.mpr hnd
  have hPL : x.primary_isa ∈ L := hLperm.mem_iff.mpr hPmem
  rw [hx]
  exact sortFams_rebuild L x.primary_isa hLnodup hPL hLsort

/-- C7: in every batch `generate_batch` returns, every occurring
`isa_label` is carried by at least `config.min_images_per_combo`
layouts.  (The floor needs no blob-feasibility proviso: phase 2 forces
the combination regardless of blob availability.) -/
theorem c7_combo_floor (idx : BlobIndex) (cfg : FirmwareGenConfig)
    (streamOf : Nat → List Nat) (count master_seed : Nat) (L : List Fam)
    (hocc : ∃ l ∈ generateBatch idx cfg streamOf count master_seed,
      l.isaLabel = L) :
    cfg.min_images_per_combo ≤
      countLabel (generateBatch idx cfg streamOf count master_seed) L := by
  have hshape : ∀ x ∈ (genPhase1 idx cfg streamOf master_seed
      (buildQuotas (familyWeights idx) count) 0).1,
      x.primary_isa ∈ x.all_isa_families ∧ x.all_isa_families.Nodup := by
    intro x hx
    obtain ⟨f, rng, sq, he⟩ := genPhase1_shape idx cfg streamOf
      master_seed _ 0 x hx
    obtain ⟨hp, s, hall, hndS, hfn⟩ :=
      generateLayout_primary_structure idx cfg rng sq f
    subst he
    constructor
    · rw [hp, hall]
      exact List.mem_cons_self _ _
    · rw [hall]
      exact List.nodup_cons.mpr ⟨hfn, hndS⟩
  have hgood := labels_good_of_shape _ hshape
  have hperm : (generateBatch idx cfg streamOf count master_seed).Perm
      ((genPhase1 idx cfg streamOf master_seed
        (buildQuotas (familyWeights idx) count) 0).1 ++
       (genPhase2 idx cfg streamOf master_seed
         (genPhase1 idx cfg streamOf master_seed
           (buildQuotas (familyWeights idx) count) 0).1
         (sortedComboLabels (genPhase1 idx cfg streamOf master_seed
           (buildQuotas (familyWeights idx) count) 0).1)
         (genPhase1 idx cfg streamOf master_seed
           (buildQuotas (familyWeights idx) count) 0).2).1) :=
    pyShuffle_perm _ _
  obtain ⟨l, hl, hlab⟩ := hocc
  have hl2 := hperm.mem_iff.mp hl
  have hLmem : L ∈ sortedComboLabels (genPhase1 idx cfg streamOf
      master_seed (buildQuotas (familyWeights idx) count) 0).1 := by
    rcases List.mem_append.mp hl2 with h | h
    · rw [← hlab]
      exact (List.perm_insertionSort _ _).mem_iff.mpr
        (List.mem_dedup.mpr (List.mem_map_of_mem ImageLayout.isaLabel h))
    · rw [← hlab]
      exact genPhase2_labels idx cfg streamOf master_seed _ _ _ hgood l h
  have hcount := countLabel_perm hperm L
  rw [hcount, countLabel_append]
  exact genPhase2_count idx cfg streamOf master_seed _ _ _ L hLmem hgood

/-- Witness for C7: a one-image request against the Thumb-only index
still carries its single-ISA label at least `min_images_per_combo`
(20) times. -/
theorem c7_witness :
    cfgC2.min_images_per_combo ≤
      countLabel (generateBatch idxC2 cfgC2 (fun _ => []) 1 0)
        [Fam.thumb] :=
  c7_combo_floor idxC2 cfgC2 (fun _ => []) 1 0 [Fam.thumb] (by decide)

end FwGen
